import Mathlib

/-!
Verification of the Plan B Cassandra cluster provisioning orchestrator
(`planb/create_cluster.py`).  The Python source is shallowly embedded:
IP addresses are natural numbers, the AWS API calls that the orchestrator
makes are oracles passed in as plain functions, and the effectful launch
and cleanup steps are modelled as explicit event traces.
-/

/-- A CIDR block such as `10.0.0.0/28`: a base address together with the
number of fixed leading bits.  The block spans `2 ^ (32 - maskBits)`
addresses starting at `baseAddr`. -/
structure Cidr where
  baseAddr : Nat
  maskBits : Nat
deriving Repr, DecidableEq

/-- `netaddr.IPNetwork(s.CidrBlock).iter_hosts()`: the addresses of the
block in ascending order, excluding the network address (first) and the
broadcast address (last). -/
def Cidr.iterHosts (c : Cidr) : List Nat :=
  (((List.range (2 ^ (32 - c.maskBits))).map (fun k => c.baseAddr + k)).drop 1).dropLast

/-- The fields of an EC2 subnet dict that `create_cluster.py` reads:
`CidrBlock`, `AvailabilityZone` and `Tags` (key-value pairs). -/
structure Subnet where
  cidrBlock : Cidr
  availabilityZone : String
  tags : List (String × String)
deriving Repr, DecidableEq

/-- `IpAddressPoolDepletedException` carrying the offending CIDR block,
plus two technical constructors: `emptySubnetList` models the
`ZeroDivisionError` that `i % len(subnets)` raises on an empty subnet
list, and `outOfFuel` is the marker of the structural-recursion fuel,
never returned when the fuel exceeds the total number of remaining
candidate addresses. -/
inductive AllocError where
  | poolDepleted (cidrBlock : Cidr)
  | emptySubnetList
  | outOfFuel
deriving Repr, DecidableEq

/-- The number of addresses skipped at the head of every subnet's host
sequence: the source runs `for _ in range(10): try_next_address(..)`,
because the first addresses of each subnet are taken by AWS system
instances invisible to enumeration. -/
def reservedAddressCount : Nat := 10

/-- `try_next_address` applied `n` times: drop the first `n` addresses of
one subnet's host iterator, raising `IpAddressPoolDepletedException` with
that subnet's CIDR block if the iterator is exhausted meanwhile. -/
def skipReserved (cidr : Cidr) : Nat → List Nat → Except AllocError (List Nat)
  | 0, hosts => .ok hosts
  | _ + 1, [] => .error (.poolDepleted cidr)
  | n + 1, _ :: rest => skipReserved cidr n rest

/-- Initialisation of `generate_private_ip_addresses`: one host iterator
per subnet (paired with the subnet's CIDR block for error reporting),
each with the reserved head addresses skipped, in subnet order. -/
def initIters : List Subnet → Except AllocError (List (Cidr × List Nat))
  | [] => .ok []
  | s :: rest =>
    match skipReserved s.cidrBlock reservedAddressCount s.cidrBlock.iterHosts with
    | .error e => .error e
    | .ok hosts =>
      match initIters rest with
      | .error e => .error e
      | .ok others => .ok ((s.cidrBlock, hosts) :: others)

/-- One probe of the main allocation loop: the subnet index the candidate
address was drawn from, the address itself, and whether the
`describe_instances` query reported it free (`accepted = true`) or
already in use. -/
structure Draw where
  idx : Nat
  ip : Nat
  accepted : Bool
deriving Repr, DecidableEq

/-- Observable outcome of the generator: the provider probes made (in
order), the addresses yielded (in order), and the exception, if any,
that the generator run ended with.  A Python generator yields lazily;
`allocate_ip_addresses` drives it to completion, so the eager trace is
observationally the same. -/
structure GenResult where
  draws : List Draw
  ips : List Nat
  err : Option AllocError
deriving Repr, DecidableEq

/-- The `while i < cluster_size` loop of `generate_private_ip_addresses`.
`iters` holds the per-subnet host iterators (reserved heads already
skipped) and `i` counts the addresses yielded so far.  Each candidate is
drawn from subnet `i % len(subnets)`; a candidate that the provider
reports in use is dropped without incrementing `i`, so the next candidate
comes from the same subnet's iterator.  `fuel` only makes the recursion
structural: every iteration consumes one candidate address, so any fuel
above the total number of remaining addresses is enough (the `none`
branch of the lookup is dead code whenever `iters` is non-empty). -/
def allocGo (inUse : Nat → Bool) : Nat → List (Cidr × List Nat) → Nat → Nat → GenResult
  | 0, _, _, _ => ⟨[], [], some .outOfFuel⟩
  | fuel + 1, iters, i, clusterSize =>
    if i < clusterSize then
      match iters[i % iters.length]? with
      | none => ⟨[], [], some .emptySubnetList⟩
      | some (cidr, []) => ⟨[], [], some (.poolDepleted cidr)⟩
      | some (cidr, ip :: rest) =>
        let next := iters.set (i % iters.length) (cidr, rest)
        if inUse ip then
          let r := allocGo inUse fuel next i clusterSize
          ⟨⟨i % iters.length, ip, false⟩ :: r.draws, r.ips, r.err⟩
        else
          let r := allocGo inUse fuel next (i + 1) clusterSize
          ⟨⟨i % iters.length, ip, true⟩ :: r.draws, ip :: r.ips, r.err⟩
    else ⟨[], [], none⟩

/-- `generate_private_ip_addresses(ec2, subnets, cluster_size)`: derive
the host sequence of every subnet, skip the reserved head addresses, then
run the round-robin allocation loop.  The `ec2.describe_instances` query
on the candidate's private address is the `inUse` oracle. -/
def generate_private_ip_addresses (inUse : Nat → Bool) (subnets : List Subnet)
    (clusterSize : Nat) : GenResult :=
  match initIters subnets with
  | .error e => ⟨[], [], some e⟩
  | .ok iters => allocGo inUse ((iters.map (fun p => p.2.length)).sum + 1) iters 0 clusterSize

/-- One node's network identity, as accumulated in `node_ips`: the
mandatory private address, and the Elastic IP data (`PublicIp`,
`AllocationId`) present only when `take_elastic_ips` was set.
`_defaultIp` is the public address in that mode, the private one
otherwise. -/
structure Address where
  privateIp : Nat
  publicIp : Option Nat
  allocationId : Option Nat
  defaultIp : Nat
deriving Repr, DecidableEq

/-- The body of the `for ip in generate_private_ip_addresses(..)` loop of
`allocate_ip_addresses` for the `k`-th yielded address: optionally call
`ec2.allocate_address(Domain='vpc')` (modelled by the `supply` oracle,
queried at the call index) and fill in the address record. -/
def mkAddress (takeElasticIps : Bool) (supply : Nat → Nat × Nat) (k : Nat) (ip : Nat) : Address :=
  if takeElasticIps then
    { privateIp := ip, publicIp := some (supply k).1,
      allocationId := some (supply k).2, defaultIp := (supply k).1 }
  else
    { privateIp := ip, publicIp := none, allocationId := none, defaultIp := ip }

/-- All address records appended to `node_ips[region]`, in yield order. -/
def buildAddresses (takeElasticIps : Bool) (supply : Nat → Nat × Nat) (ips : List Nat) :
    List Address :=
  ips.enum.map (fun q => mkAddress takeElasticIps supply q.1 q.2)

/-- `allocate_ip_addresses(region_subnets, cluster_size, node_ips,
take_elastic_ips)`.  Regions are processed in dict order; the addresses
appended before a region's generator raised stay recorded (the pair is
returned together with the pending exception, if any).  A region whose
generator raised before yielding anything is recorded here with an empty
list, where the Python `defaultdict` would have no key at all; no
observable behaviour in this development distinguishes the two. -/
def allocate_ip_addresses (inUse : String → Nat → Bool) (supply : String → Nat → Nat × Nat)
    (takeElasticIps : Bool) (clusterSize : Nat) :
    List (String × List Subnet) → List (String × List Address) × Option AllocError
  | [] => ([], none)
  | (region, subs) :: rest =>
    let g := generate_private_ip_addresses (inUse region) subs clusterSize
    let addrs := buildAddresses takeElasticIps (supply region) g.ips
    match g.err with
    | some e => ([(region, addrs)], some e)
    | none =>
      let r := allocate_ip_addresses inUse supply takeElasticIps clusterSize rest
      ((region, addrs) :: r.1, r.2)

/-- `pick_seed_node_ips(node_ips, seed_count)`: per region, the slice
`ips[0:seed_count]`, in the same region order. -/
def pick_seed_node_ips : List (String × List Address) → Nat → List (String × List Address)
  | [], _ => []
  | (region, ips) :: rest, seedCount =>
    (region, ips.take seedCount) :: pick_seed_node_ips rest seedCount

/-- `seed_count = min(options['cluster_size'], 3)`: up to 3 seed nodes
per region. -/
def seedCountOf (clusterSize : Nat) : Nat := min clusterSize 3

/-- Character-list test used to model Python's `str.startswith`. -/
def listBeginsWith : List Char → List Char → Bool
  | [], _ => true
  | _ :: _, [] => false
  | a :: as, b :: bs => a == b && listBeginsWith as bs

/-- Python's `value.startswith(filter)`. -/
def strBeginsWith (filterStr s : String) : Bool := listBeginsWith filterStr.data s.data

/-- Lexicographic order on character lists, modelling Python string
comparison for sorting keys. -/
def listLe : List Char → List Char → Bool
  | [], _ => true
  | _ :: _, [] => false
  | a :: as, b :: bs => if a < b then true else if b < a then false else listLe as bs

/-- String comparison used as a sort key. -/
def strLe (a b : String) : Bool := listLe a.data b.data

/-- Insert into an already sorted list, after all elements with a
smaller-or-equal key: together with `sortLe` this models Python's stable
`sorted`. -/
def insertLe {α : Type} (le : α → α → Bool) (a : α) : List α → List α
  | [] => [a]
  | b :: bs => if le b a then b :: insertLe le a bs else a :: b :: bs

/-- Stable sort (insertion sort, keeping the original order of equal
keys), modelling Python's `sorted`. -/
def sortLe {α : Type} (le : α → α → Bool) (l : List α) : List α :=
  l.foldl (fun acc x => insertLe le x acc) []

/-- The per-region body of `get_subnets`: sort the region's subnets by
availability zone, then keep one copy of a subnet per `Name` tag whose
value starts with the requested filter string. -/
def get_subnets_region (filterStr : String) (raw : List Subnet) : List Subnet :=
  ((sortLe (fun a b => strLe a.availabilityZone b.availabilityZone) raw).map
    (fun s => (s.tags.filter (fun t => t.1 == "Name" && strBeginsWith filterStr t.2)).map
      (fun _ => s))).flatten

/-- `get_subnets(prefix_filter, regions)`: a region appears in the
resulting dict only if at least one of its subnets passed the name
filter (`collections.defaultdict(list)` creates a key only when the
first subnet is appended). -/
def get_subnets (describeSubnets : String → List Subnet) (filterStr : String) :
    List String → List (String × List Subnet)
  | [] => []
  | region :: rest =>
    let lst := get_subnets_region filterStr (describeSubnets region)
    if lst.isEmpty then get_subnets describeSubnets filterStr rest
    else (region, lst) :: get_subnets describeSubnets filterStr rest

/-- The observable actions of the launch phase: one `launch` per
`launch_instance` call (its internal volume creation, `run_instances`
request, tagging and 5-second state polling are part of that single
action) and one `sleep` per `time.sleep`. -/
inductive LaunchEvent where
  | launch (region : String) (defaultIp : Nat) (isSeed : Bool)
  | sleep (seconds : Nat)
deriving Repr, DecidableEq

/-- The `(region, ip)` pairs visited by the nested region/ip loops, in
order. -/
def flattenRegionIps (l : List (String × List Address)) : List (String × Address) :=
  (l.map (fun p => p.2.map (fun ip => (p.1, ip)))).flatten

/-- The loop body of `launch_seed_nodes`: launch every seed and sleep 60
seconds after each launch except the last one, judged against
`total_seed_count`. -/
def seedEvents : List (String × Address) → Nat → Nat → List LaunchEvent
  | [], _, _ => []
  | (region, ip) :: rest, launched, total =>
    LaunchEvent.launch region ip.defaultIp true ::
      (if launched + 1 < total then
        LaunchEvent.sleep 60 :: seedEvents rest (launched + 1) total
      else seedEvents rest (launched + 1) total)

/-- `launch_seed_nodes(options)`, with
`total_seed_count = seed_count * len(regions)`. -/
def launch_seed_nodes (seedCount : Nat) (regions : List String)
    (seedNodes : List (String × List Address)) : List LaunchEvent :=
  seedEvents (flattenRegionIps seedNodes) 0 (seedCount * regions.length)

/-- The per-region loop of `launch_normal_nodes`: `enumerate(ips)`,
acting only on indices at or past `seed_count`, sleeping 60 seconds
before every launch. -/
def normalGo (region : String) (seedCount : Nat) : Nat → List Address → List LaunchEvent
  | _, [] => []
  | i, ip :: rest =>
    (if seedCount ≤ i then
      [LaunchEvent.sleep 60, LaunchEvent.launch region ip.defaultIp false]
    else []) ++ normalGo region seedCount (i + 1) rest

/-- `launch_normal_nodes(options)`. -/
def launch_normal_nodes (nodeIps : List (String × List Address)) (seedCount : Nat) :
    List LaunchEvent :=
  (nodeIps.map (fun p => normalGo p.1 seedCount 0 p.2)).flatten

/-- The compensating actions of the `except:` block of `create_cluster`:
`ec2.delete_security_group` and `ec2.release_address` calls. -/
inductive CleanupEvent where
  | deleteSecurityGroup (region : String) (groupId : String)
  | releaseAddress (region : String) (allocationId : Option Nat)
deriving Repr, DecidableEq

/-- The failures modelled along the orchestration pipeline:
`Exception('No Taupage AMI found')`, `Exception('Failed to find Hosted
Zone ..')`, and the allocator exceptions. -/
inductive RunError where
  | noTaupageAmi
  | hostedZoneNotFound (zone : String)
  | alloc (e : AllocError)
deriving Repr, DecidableEq

/-- The compensation sequence of the `except:` block: delete every
recorded security group (one per region, in recording order), then, if
`use_dmz` was set, release every Elastic IP recorded in `node_ips` (in
recording order). -/
def rollback_events (useDmz : Bool) (securityGroups : List (String × String))
    (nodeIps : List (String × List Address)) : List CleanupEvent :=
  securityGroups.map (fun p => CleanupEvent.deleteSecurityGroup p.1 p.2)
    ++ (if useDmz then
          (nodeIps.map (fun p => p.2.map (fun ip => CleanupEvent.releaseAddress p.1 ip.allocationId))).flatten
        else [])

/-- What `create_cluster` returns on success: the topology and launch
trace (the printed summary is not modelled). -/
structure SuccessReport where
  nodeIps : List (String × List Address)
  seedCount : Nat
  seedNodes : List (String × List Address)
  events : List LaunchEvent
deriving Repr, DecidableEq

/-- The whole `except: .. raise` block of `create_cluster`: print the
failure notice (not modelled), issue the compensations for the recorded
state, and re-raise the original exception unchanged. -/
def exceptHandler (useDmz : Bool) (securityGroups : List (String × String))
    (nodeIps : List (String × List Address)) (e : RunError) :
    List CleanupEvent × Except RunError SuccessReport :=
  (rollback_events useDmz securityGroups nodeIps, .error e)

/-- `find_taupage_amis(regions)`: per region, the latest image, obtained
as the last element of the name-sorted image list; an empty list raises
`Exception('No Taupage AMI found')`. -/
def find_taupage_amis (amiNames : String → List String) :
    List String → Except RunError (List (String × String))
  | [] => .ok []
  | region :: rest =>
    match (sortLe strLe (amiNames region)).getLast? with
    | none => .error .noTaupageAmi
    | some ami =>
      match find_taupage_amis amiNames rest with
      | .error e => .error e
      | .ok others => .ok ((region, ami) :: others)

/-- The zone-resolution part of `setup_dns_records`: the configured zone
must match the `Name` of a listed hosted zone, otherwise
`Exception('Failed to find Hosted Zone ..')` is raised.  The per-region
SRV upserts that follow are external effects with no failure mode
claimed, and are not modelled. -/
def setup_dns_records (hostedZones : List String) (zone : String) : Except RunError Unit :=
  if hostedZones.contains zone then .ok () else .error (.hostedZoneNotFound zone)

/-- The recording behaviour of `setup_security_groups`: one security
group per region of `node_ips`, stored under the region key in iteration
order (`result[region] = sg`).  The ingress rules are not modelled: no
claim concerns them. -/
def setup_security_groups (sgIdFor : String → String)
    (nodeIps : List (String × List Address)) : List (String × String) :=
  nodeIps.map (fun p => (p.1, sgIdFor p.1))

/-- The operator-supplied options that the modelled pipeline reads. -/
structure Config where
  regions : List String
  clusterSize : Nat
  useDmz : Bool
  hostedZone : Option String

/-- The AWS collaborator interface of the modelled pipeline. -/
structure Provider where
  amiNames : String → List String
  describeSubnets : String → List Subnet
  inUse : String → Nat → Bool
  elasticSupply : String → Nat → Nat × Nat
  hostedZones : List String
  sgIdFor : String → String

/-- The `try:` body of `create_cluster` with its `except:` handler, in
source order: resolve AMIs, enumerate and filter subnets, allocate
addresses, resolve the DNS zone (if configured), create security groups,
pick seeds, launch seeds then normal nodes.  Artifact validation,
certificate generation, SNS topic setup, user-data templating and the
instance profile are external steps with no claims attached and are not
modelled; security-group creation and the launches are modelled as
non-failing (their provider errors are covered by the claims only through
the generic handler `exceptHandler`). -/
def create_cluster (cfg : Config) (p : Provider) :
    List CleanupEvent × Except RunError SuccessReport :=
  match find_taupage_amis p.amiNames cfg.regions with
  | .error e => exceptHandler cfg.useDmz [] [] e
  | .ok _amis =>
    let subnets := get_subnets p.describeSubnets
      (if cfg.useDmz then "dmz-" else "internal-") cfg.regions
    let alloc := allocate_ip_addresses p.inUse p.elasticSupply cfg.useDmz cfg.clusterSize subnets
    match alloc.2 with
    | some e => exceptHandler cfg.useDmz [] alloc.1 (.alloc e)
    | none =>
      let nodeIps := alloc.1
      let dnsRes : Except RunError Unit :=
        match cfg.hostedZone with
        | some z => setup_dns_records p.hostedZones z
        | none => .ok ()
      match dnsRes with
      | .error e => exceptHandler cfg.useDmz [] nodeIps e
      | .ok _ =>
        let _securityGroups := setup_security_groups p.sgIdFor nodeIps
        let sc := seedCountOf cfg.clusterSize
        let seedNodes := pick_seed_node_ips nodeIps sc
        let events := launch_seed_nodes sc cfg.regions seedNodes
          ++ launch_normal_nodes nodeIps sc
        ([], .ok ⟨nodeIps, sc, seedNodes, events⟩)

/-- The concatenation of every host pool of every subnet of the run, in
region and subnet order: the reference pool for the cross-run
distinctness hypothesis. -/
def regionHostPool (rs : List (String × List Subnet)) : List Nat :=
  (((rs.map (fun p => p.2)).flatten).map (fun s => s.cidrBlock.iterHosts)).flatten

/-- Recogniser for `ec2.delete_security_group` compensations. -/
def isDeleteSG : CleanupEvent → Bool
  | .deleteSecurityGroup _ _ => true
  | _ => false

/-- Recogniser for `ec2.release_address` compensations. -/
def isReleaseAddr : CleanupEvent → Bool
  | .releaseAddress _ _ => true
  | _ => false

/-- Recogniser for seed-node launch requests. -/
def isSeedLaunch : LaunchEvent → Bool
  | .launch _ _ true => true
  | _ => false

/-- Recogniser for normal-node launch requests. -/
def isNormalLaunch : LaunchEvent → Bool
  | .launch _ _ false => true
  | _ => false

/-! ### Concrete fixtures used by the witness and counterexample runs -/

/-- A `/28` block based at address 0: host sequence `1..14`, so 4 usable
addresses (`11..14`) after the reserved skip. -/
def exCidr : Cidr := { baseAddr := 0, maskBits := 28 }

/-- A `/28` block based at address 64: host sequence `65..78`, disjoint
from `exCidr`. -/
def exCidr2 : Cidr := { baseAddr := 64, maskBits := 28 }

/-- An internal subnet over `exCidr`. -/
def exSubnet : Subnet :=
  { cidrBlock := exCidr, availabilityZone := "az-a", tags := [("Name", "internal-a")] }

/-- An internal subnet over `exCidr2`. -/
def exSubnet2 : Subnet :=
  { cidrBlock := exCidr2, availabilityZone := "az-b", tags := [("Name", "internal-b")] }

/-- A public-facing subnet over `exCidr`. -/
def dmzSubnet : Subnet :=
  { cidrBlock := exCidr, availabilityZone := "az-a", tags := [("Name", "dmz-a")] }

/-- Provider query reporting every address free. -/
def inUseNone : String → Nat → Bool := fun _ _ => false

/-- A deterministic Elastic-IP supply: the `k`-th allocation of a region
returns public address `100 + k` with allocation handle `500 + k`. -/
def supplySeq : String → Nat → Nat × Nat := fun _ k => (100 + k, 500 + k)

/-- Two regions drawing from the same CIDR block: the overlap that breaks
cross-run address distinctness. -/
def dupRunPairs : List (String × List Subnet) := [("r1", [exSubnet]), ("r2", [exSubnet])]

/-- Two regions drawing from disjoint CIDR blocks. -/
def disjointRunPairs : List (String × List Subnet) := [("r1", [exSubnet]), ("r2", [exSubnet2])]

/-- The topology the disjoint two-region run records at quota 1. -/
def disjointRunResult : List (String × List Address) :=
  [("r1", [{ privateIp := 11, publicIp := none, allocationId := none, defaultIp := 11 }]),
   ("r2", [{ privateIp := 75, publicIp := none, allocationId := none, defaultIp := 75 }])]

/-- Private-only address record on address `k`. -/
def mkAddr (k : Nat) : Address :=
  { privateIp := k, publicIp := none, allocationId := none, defaultIp := k }

/-- A one-region topology of four private addresses, as allocated from
`exSubnet` at quota 4. -/
def nodeIpsW : List (String × List Address) :=
  [("r1", [mkAddr 11, mkAddr 12, mkAddr 13, mkAddr 14])]

/-- Options of the internal-subnet success run: one region, cluster size
4, no DNS zone. -/
def cfgSeedRun : Config :=
  { regions := ["r1"], clusterSize := 4, useDmz := false, hostedZone := none }

/-- Provider of the internal-subnet success run. -/
def provInternal : Provider :=
  { amiNames := fun _ => ["Taupage-AMI-1"], describeSubnets := fun _ => [exSubnet],
    inUse := inUseNone, elasticSupply := supplySeq, hostedZones := [],
    sgIdFor := fun _ => "sg-1" }

/-- The report of the internal-subnet success run: three seeds paced by
sleeps, then the one normal node preceded by a sleep. -/
def repW : SuccessReport :=
  { nodeIps := nodeIpsW, seedCount := 3,
    seedNodes := [("r1", [mkAddr 11, mkAddr 12, mkAddr 13])],
    events := [LaunchEvent.launch "r1" 11 true, LaunchEvent.sleep 60,
      LaunchEvent.launch "r1" 12 true, LaunchEvent.sleep 60,
      LaunchEvent.launch "r1" 13 true, LaunchEvent.sleep 60,
      LaunchEvent.launch "r1" 14 false] }

/-- Options of the public-facing run whose configured DNS zone does not
exist. -/
def cfgDmzZone : Config :=
  { regions := ["r1"], clusterSize := 1, useDmz := true, hostedZone := some "z." }

/-- Provider of the public-facing run: one dmz subnet, no hosted zones. -/
def provDmz : Provider :=
  { amiNames := fun _ => ["Taupage-AMI-1"], describeSubnets := fun _ => [dmzSubnet],
    inUse := inUseNone, elasticSupply := supplySeq, hostedZones := [],
    sgIdFor := fun _ => "sg-1" }

/-- Options of a run over a region whose subnets all fail the name
filter. -/
def cfgNoSubnets : Config :=
  { regions := ["r1"], clusterSize := 1, useDmz := false, hostedZone := none }

/-- Provider with no subnets at all in the region. -/
def provEmpty : Provider :=
  { amiNames := fun _ => ["Taupage-AMI-1"], describeSubnets := fun _ => [],
    inUse := inUseNone, elasticSupply := supplySeq, hostedZones := [],
    sgIdFor := fun _ => "sg-1" }

/-- Options of a two-region run in which the second region will be
dropped by the subnet filter. -/
def cfgDropped : Config :=
  { regions := ["r1", "r2"], clusterSize := 1, useDmz := false, hostedZone := none }

/-- Provider of the dropped-region run: only `r1` has a subnet. -/
def provDropped : Provider :=
  { amiNames := fun _ => ["Taupage-AMI-1"],
    describeSubnets := fun r => if r == "r1" then [exSubnet] else [],
    inUse := inUseNone, elasticSupply := supplySeq, hostedZones := [],
    sgIdFor := fun _ => "sg-1" }

/-! ### List infrastructure for the allocation loop -/

/-- Decomposition of the joined remaining-address pools around the head
of the iterator at position `idx`, before and after that head is
consumed. -/
theorem flatten_set_decomp :
    ∀ (iters : List (Cidr × List Nat)) (idx : Nat) (cidr : Cidr) (ip : Nat) (rest : List Nat),
      iters[idx]? = some (cidr, ip :: rest) →
      ∃ A B, (iters.map (fun p => p.2)).flatten = A ++ ip :: (rest ++ B) ∧
        ((iters.set idx (cidr, rest)).map (fun p => p.2)).flatten = A ++ (rest ++ B) := by
  intro iters
  induction iters with
  | nil => intro idx c ip rest h; simp at h
  | cons hd tl ih =>
    intro idx c ip rest h
    cases idx with
    | zero =>
      refine ⟨[], (tl.map (fun p => p.2)).flatten, ?_, ?_⟩ <;>
        simp_all
    | succ k =>
      simp only [List.getElem?_cons_succ] at h
      obtain ⟨A, B, h1, h2⟩ := ih k c ip rest h
      simp only [List.map_set] at h2
      exact ⟨hd.2 ++ A, B, by simp [h1], by simp [h2, List.map_set]⟩

/-- Consuming one candidate never adds addresses to the pools. -/
theorem mem_flatten_set
    (iters : List (Cidr × List Nat)) (idx : Nat) (cidr : Cidr) (ip : Nat) (rest : List Nat)
    (h : iters[idx]? = some (cidr, ip :: rest)) :
    ∀ x ∈ ((iters.set idx (cidr, rest)).map (fun p => p.2)).flatten,
      x ∈ (iters.map (fun p => p.2)).flatten := by
  obtain ⟨A, B, h1, h2⟩ := flatten_set_decomp iters idx cidr ip rest h
  intro x hx
  rw [h2] at hx
  rw [h1]
  simp only [List.mem_append, List.mem_cons] at hx ⊢
  tauto

/-- The drawn candidate address belongs to the pools. -/
theorem drawn_mem_flatten
    (iters : List (Cidr × List Nat)) (idx : Nat) (cidr : Cidr) (ip : Nat) (rest : List Nat)
    (h : iters[idx]? = some (cidr, ip :: rest)) :
    ip ∈ (iters.map (fun p => p.2)).flatten := by
  obtain ⟨A, B, h1, _⟩ := flatten_set_decomp iters idx cidr ip rest h
  rw [h1]; simp

/-- If the pools hold no duplicates, consuming a candidate keeps them
duplicate-free and removes that candidate for good. -/
theorem nodup_flatten_set
    (iters : List (Cidr × List Nat)) (idx : Nat) (cidr : Cidr) (ip : Nat) (rest : List Nat)
    (h : iters[idx]? = some (cidr, ip :: rest))
    (hnd : ((iters.map (fun p => p.2)).flatten).Nodup) :
    (((iters.set idx (cidr, rest)).map (fun p => p.2)).flatten).Nodup ∧
      ip ∉ ((iters.set idx (cidr, rest)).map (fun p => p.2)).flatten := by
  obtain ⟨A, B, h1, h2⟩ := flatten_set_decomp iters idx cidr ip rest h
  rw [h1] at hnd
  rw [h2]
  simp only [List.nodup_append, List.nodup_cons, List.mem_append, List.mem_cons,
    List.Disjoint] at hnd ⊢
  constructor
  · refine ⟨hnd.1, hnd.2.1.2, ?_⟩
    intro a ha hb
    exact hnd.2.2 ha (Or.inr hb)
  · rintro (hA | hB)
    · exact hnd.2.2 hA (Or.inl rfl)
    · exact hnd.2.1.1 hB

/-! ### Step equations of the allocation loop -/

/-- Loop exit: the quota is filled. -/
theorem allocGo_stop (inUse : Nat → Bool) (fuel : Nat) (iters : List (Cidr × List Nat))
    (i n : Nat) (h : ¬ i < n) : allocGo inUse (fuel + 1) iters i n = ⟨[], [], none⟩ := by
  simp [allocGo, h]

/-- Empty subnet list (dead code in the orchestrator, where a region
always has at least one subnet). -/
theorem allocGo_empty (inUse : Nat → Bool) (fuel : Nat) (iters : List (Cidr × List Nat))
    (i n : Nat) (h : i < n) (h2 : iters[i % iters.length]? = none) :
    allocGo inUse (fuel + 1) iters i n = ⟨[], [], some .emptySubnetList⟩ := by
  simp [allocGo, h, h2]

/-- The selected subnet's iterator is exhausted: raise
`IpAddressPoolDepletedException` with its CIDR block. -/
theorem allocGo_depleted (inUse : Nat → Bool) (fuel : Nat) (iters : List (Cidr × List Nat))
    (i n : Nat) (cidr : Cidr) (h : i < n)
    (h2 : iters[i % iters.length]? = some (cidr, [])) :
    allocGo inUse (fuel + 1) iters i n = ⟨[], [], some (.poolDepleted cidr)⟩ := by
  simp [allocGo, h, h2]

/-- The provider reports the candidate in use: record the probe, keep `i`,
continue with the same subnet's iterator advanced. -/
theorem allocGo_reject (inUse : Nat → Bool) (fuel : Nat) (iters : List (Cidr × List Nat))
    (i n : Nat) (cidr : Cidr) (ip : Nat) (rest : List Nat) (h : i < n)
    (h2 : iters[i % iters.length]? = some (cidr, ip :: rest)) (hu : inUse ip = true) :
    allocGo inUse (fuel + 1) iters i n =
      ⟨⟨i % iters.length, ip, false⟩ ::
          (allocGo inUse fuel (iters.set (i % iters.length) (cidr, rest)) i n).draws,
        (allocGo inUse fuel (iters.set (i % iters.length) (cidr, rest)) i n).ips,
        (allocGo inUse fuel (iters.set (i % iters.length) (cidr, rest)) i n).err⟩ := by
  simp [allocGo, h, h2, hu]

/-- The candidate is free: yield it and increment `i`. -/
theorem allocGo_accept (inUse : Nat → Bool) (fuel : Nat) (iters : List (Cidr × List Nat))
    (i n : Nat) (cidr : Cidr) (ip : Nat) (rest : List Nat) (h : i < n)
    (h2 : iters[i % iters.length]? = some (cidr, ip :: rest)) (hu : inUse ip = false) :
    allocGo inUse (fuel + 1) iters i n =
      ⟨⟨i % iters.length, ip, true⟩ ::
          (allocGo inUse fuel (iters.set (i % iters.length) (cidr, rest)) (i + 1) n).draws,
        ip :: (allocGo inUse fuel (iters.set (i % iters.length) (cidr, rest)) (i + 1) n).ips,
        (allocGo inUse fuel (iters.set (i % iters.length) (cidr, rest)) (i + 1) n).err⟩ := by
  simp [allocGo, h, h2, hu]

/-! ### Invariants of the allocation loop -/

/-- Every address the loop yields was drawn from the remaining pools and
was reported free by the provider. -/
theorem allocGo_ips_mem (inUse : Nat → Bool) :
    ∀ (fuel : Nat) (iters : List (Cidr × List Nat)) (i n ip : Nat),
      ip ∈ (allocGo inUse fuel iters i n).ips →
      ip ∈ (iters.map (fun p => p.2)).flatten ∧ inUse ip = false := by
  intro fuel
  induction fuel with
  | zero => intro iters i n ip h; simp [allocGo] at h
  | succ fuel ih =>
    intro iters i n ip h
    by_cases hin : i < n
    · rcases hIt : iters[i % iters.length]? with _ | ⟨c, hosts⟩
      · rw [allocGo_empty inUse fuel iters i n hin hIt] at h
        simp at h
      · cases hosts with
        | nil =>
          rw [allocGo_depleted inUse fuel iters i n c hin hIt] at h
          simp at h
        | cons ip0 rest =>
          cases hu : inUse ip0 with
          | true =>
            rw [allocGo_reject inUse fuel iters i n c ip0 rest hin hIt hu] at h
            obtain ⟨hm, hf⟩ := ih _ i n ip h
            exact ⟨mem_flatten_set iters _ c ip0 rest hIt ip hm, hf⟩
          | false =>
            rw [allocGo_accept inUse fuel iters i n c ip0 rest hin hIt hu] at h
            simp only [List.mem_cons] at h
            rcases h with rfl | hm
            · exact ⟨drawn_mem_flatten iters _ c ip rest hIt, hu⟩
            · obtain ⟨hm2, hf⟩ := ih _ (i + 1) n ip hm
              exact ⟨mem_flatten_set iters _ c ip0 rest hIt ip hm2, hf⟩
    · rw [allocGo_stop inUse fuel iters i n hin] at h
      simp at h

/-- A run that ends without an exception has yielded exactly the
remaining quota `n - i`. -/
theorem allocGo_ips_length (inUse : Nat → Bool) :
    ∀ (fuel : Nat) (iters : List (Cidr × List Nat)) (i n : Nat),
      (allocGo inUse fuel iters i n).err = none →
      (allocGo inUse fuel iters i n).ips.length = n - i := by
  intro fuel
  induction fuel with
  | zero => intro iters i n h; simp [allocGo] at h
  | succ fuel ih =>
    intro iters i n h
    by_cases hin : i < n
    · rcases hIt : iters[i % iters.length]? with _ | ⟨c, hosts⟩
      · rw [allocGo_empty inUse fuel iters i n hin hIt] at h
        simp at h
      · cases hosts with
        | nil =>
          rw [allocGo_depleted inUse fuel iters i n c hin hIt] at h
          simp at h
        | cons ip0 rest =>
          cases hu : inUse ip0 with
          | true =>
            rw [allocGo_reject inUse fuel iters i n c ip0 rest hin hIt hu] at h ⊢
            exact ih _ i n h
          | false =>
            rw [allocGo_accept inUse fuel iters i n c ip0 rest hin hIt hu] at h ⊢
            simp only [List.length_cons]
            rw [ih _ (i + 1) n h]
            omega
    · rw [allocGo_stop inUse fuel iters i n hin]
      simp
      omega

/-- If the candidate pools hold no duplicate addresses, neither does the
yielded sequence. -/
theorem allocGo_ips_nodup (inUse : Nat → Bool) :
    ∀ (fuel : Nat) (iters : List (Cidr × List Nat)) (i n : Nat),
      ((iters.map (fun p => p.2)).flatten).Nodup →
      ((allocGo inUse fuel iters i n).ips).Nodup := by
  intro fuel
  induction fuel with
  | zero => intro iters i n _; simp [allocGo]
  | succ fuel ih =>
    intro iters i n hnd
    by_cases hin : i < n
    · rcases hIt : iters[i % iters.length]? with _ | ⟨c, hosts⟩
      · rw [allocGo_empty inUse fuel iters i n hin hIt]; simp
      · cases hosts with
        | nil => rw [allocGo_depleted inUse fuel iters i n c hin hIt]; simp
        | cons ip0 rest =>
          obtain ⟨hnd2, hout⟩ := nodup_flatten_set iters _ c ip0 rest hIt hnd
          cases hu : inUse ip0 with
          | true =>
            rw [allocGo_reject inUse fuel iters i n c ip0 rest hin hIt hu]
            exact ih _ i n hnd2
          | false =>
            rw [allocGo_accept inUse fuel iters i n c ip0 rest hin hIt hu]
            refine List.Nodup.cons ?_ (ih _ (i + 1) n hnd2)
            intro hm
            exact hout (allocGo_ips_mem inUse fuel _ (i + 1) n ip0 hm).1
    · rw [allocGo_stop inUse fuel iters i n hin]; simp

/-- A pool-depletion exception names the CIDR block of one of the
subnets the loop is drawing from. -/
theorem allocGo_depleted_mem (inUse : Nat → Bool) :
    ∀ (fuel : Nat) (iters : List (Cidr × List Nat)) (i n : Nat) (c : Cidr),
      (allocGo inUse fuel iters i n).err = some (.poolDepleted c) →
      c ∈ iters.map (fun p => p.1) := by
  intro fuel
  induction fuel with
  | zero => intro iters i n c h; simp [allocGo] at h
  | succ fuel ih =>
    intro iters i n c h
    by_cases hin : i < n
    · rcases hIt : iters[i % iters.length]? with _ | ⟨c0, hosts⟩
      · rw [allocGo_empty inUse fuel iters i n hin hIt] at h
        simp at h
      · have hmem : (c0, hosts) ∈ iters := List.getElem?_mem hIt
        cases hosts with
        | nil =>
          rw [allocGo_depleted inUse fuel iters i n c0 hin hIt] at h
          simp only [Option.some.injEq, AllocError.poolDepleted.injEq] at h
          subst h
          exact List.mem_map.mpr ⟨(c0, []), hmem, rfl⟩
        | cons ip0 rest =>
          have step : ∀ j, (allocGo inUse fuel (iters.set (i % iters.length) (c0, rest)) j n).err
              = some (.poolDepleted c) → c ∈ iters.map (fun p => p.1) := by
            intro j hj
            have := ih _ j n c hj
            obtain ⟨p, hp, hpc⟩ := List.mem_map.mp this
            rcases List.mem_or_eq_of_mem_set hp with hpi | rfl
            · exact List.mem_map.mpr ⟨p, hpi, hpc⟩
            · exact List.mem_map.mpr ⟨(c0, ip0 :: rest), hmem, hpc⟩
          cases hu : inUse ip0 with
          | true =>
            rw [allocGo_reject inUse fuel iters i n c0 ip0 rest hin hIt hu] at h
            exact step i h
          | false =>
            rw [allocGo_accept inUse fuel iters i n c0 ip0 rest hin hIt hu] at h
            exact step (i + 1) h
    · rw [allocGo_stop inUse fuel iters i n hin] at h
      simp at h

/-- A pool-depletion exception can only occur while the quota is still
unfilled: strictly fewer than `n - i` further addresses were yielded. -/
theorem allocGo_depleted_lt (inUse : Nat → Bool) :
    ∀ (fuel : Nat) (iters : List (Cidr × List Nat)) (i n : Nat) (c : Cidr),
      (allocGo inUse fuel iters i n).err = some (.poolDepleted c) →
      i + (allocGo inUse fuel iters i n).ips.length < n := by
  intro fuel
  induction fuel with
  | zero => intro iters i n c h; simp [allocGo] at h
  | succ fuel ih =>
    intro iters i n c h
    by_cases hin : i < n
    · rcases hIt : iters[i % iters.length]? with _ | ⟨c0, hosts⟩
      · rw [allocGo_empty inUse fuel iters i n hin hIt] at h
        simp at h
      · cases hosts with
        | nil =>
          rw [allocGo_depleted inUse fuel iters i n c0 hin hIt]
          simpa using hin
        | cons ip0 rest =>
          cases hu : inUse ip0 with
          | true =>
            rw [allocGo_reject inUse fuel iters i n c0 ip0 rest hin hIt hu] at h ⊢
            exact ih _ i n c h
          | false =>
            rw [allocGo_accept inUse fuel iters i n c0 ip0 rest hin hIt hu] at h ⊢
            have := ih _ (i + 1) n c h
            simp only [List.length_cons]
            omega
    · rw [allocGo_stop inUse fuel iters i n hin] at h
      simp at h

/-- With fuel exceeding the total number of remaining candidates and a
non-empty subnet list, the loop can only end normally or with a
pool-depletion exception: the two technical error markers are dead. -/
theorem allocGo_err_cases (inUse : Nat → Bool) :
    ∀ (fuel : Nat) (iters : List (Cidr × List Nat)) (i n : Nat),
      ((iters.map (fun p => p.2)).flatten).length < fuel → iters ≠ [] →
      (allocGo inUse fuel iters i n).err = none ∨
        ∃ c, (allocGo inUse fuel iters i n).err = some (.poolDepleted c) := by
  intro fuel
  induction fuel with
  | zero => intro iters i n hf _; omega
  | succ fuel ih =>
    intro iters i n hf hne
    by_cases hin : i < n
    · rcases hIt : iters[i % iters.length]? with _ | ⟨c0, hosts⟩
      · exfalso
        have hlt : i % iters.length < iters.length :=
          Nat.mod_lt _ (List.length_pos.mpr hne)
        rw [List.getElem?_eq_getElem hlt] at hIt
        simp at hIt
      · cases hosts with
        | nil =>
          rw [allocGo_depleted inUse fuel iters i n c0 hin hIt]
          exact Or.inr ⟨c0, rfl⟩
        | cons ip0 rest =>
          obtain ⟨A, B, h1, h2⟩ := flatten_set_decomp iters _ c0 ip0 rest hIt
          have hlen : (((iters.set (i % iters.length) (c0, rest)).map
              (fun p => p.2)).flatten).length < fuel := by
            rw [h2]
            rw [h1] at hf
            simp only [List.length_append, List.length_cons] at hf ⊢
            omega
          have hne2 : iters.set (i % iters.length) (c0, rest) ≠ [] := by
            intro hempty
            have := congrArg List.length hempty
            simp at this
            exact hne this
          cases hu : inUse ip0 with
          | true =>
            rw [allocGo_reject inUse fuel iters i n c0 ip0 rest hin hIt hu]
            exact ih _ i n hlen hne2
          | false =>
            rw [allocGo_accept inUse fuel iters i n c0 ip0 rest hin hIt hu]
            exact ih _ (i + 1) n hlen hne2
    · rw [allocGo_stop inUse fuel iters i n hin]
      exact Or.inl rfl

/-- The probes that the loop accepted are exactly the yielded addresses,
and the `k`-th accepted probe (0-based, counting accepted probes only)
was drawn from subnet `(i + k) % len(subnets)`. -/
theorem allocGo_draws_accepted (inUse : Nat → Bool) :
    ∀ (fuel : Nat) (iters : List (Cidr × List Nat)) (i n : Nat),
      (((allocGo inUse fuel iters i n).draws.filter (fun d => d.accepted)).map
          (fun d => d.ip) = (allocGo inUse fuel iters i n).ips) ∧
        (((allocGo inUse fuel iters i n).draws.filter (fun d => d.accepted)).map
          (fun d => d.idx)
            = (List.range' i (allocGo inUse fuel iters i n).ips.length).map
                (fun j => j % iters.length)) := by
  intro fuel
  induction fuel with
  | zero => intro iters i n; simp [allocGo]
  | succ fuel ih =>
    intro iters i n
    by_cases hin : i < n
    · rcases hIt : iters[i % iters.length]? with _ | ⟨c0, hosts⟩
      · rw [allocGo_empty inUse fuel iters i n hin hIt]; simp
      · cases hosts with
        | nil => rw [allocGo_depleted inUse fuel iters i n c0 hin hIt]; simp
        | cons ip0 rest =>
          have hsetlen : (iters.set (i % iters.length) (c0, rest)).length = iters.length :=
            List.length_set iters _ _
          cases hu : inUse ip0 with
          | true =>
            rw [allocGo_reject inUse fuel iters i n c0 ip0 rest hin hIt hu]
            obtain ⟨ha, hb⟩ := ih _ i n
            rw [hsetlen] at hb
            simp [List.filter_cons, ha, hb]
          | false =>
            rw [allocGo_accept inUse fuel iters i n c0 ip0 rest hin hIt hu]
            obtain ⟨ha, hb⟩ := ih _ (i + 1) n
            rw [hsetlen] at hb
            simp [List.filter_cons, List.range'_succ, ha, hb]
    · rw [allocGo_stop inUse fuel iters i n hin]; simp

/-- The first probe of a loop run is always drawn from subnet
`i % len(subnets)`. -/
theorem allocGo_head_idx (inUse : Nat → Bool) :
    ∀ (fuel : Nat) (iters : List (Cidr × List Nat)) (i n : Nat) (d : Draw),
      (allocGo inUse fuel iters i n).draws.head? = some d → d.idx = i % iters.length := by
  intro fuel iters i n d h
  match fuel with
  | 0 => simp [allocGo] at h
  | fuel + 1 =>
    by_cases hin : i < n
    · rcases hIt : iters[i % iters.length]? with _ | ⟨c0, hosts⟩
      · rw [allocGo_empty inUse fuel iters i n hin hIt] at h
        simp at h
      · cases hosts with
        | nil =>
          rw [allocGo_depleted inUse fuel iters i n c0 hin hIt] at h
          simp at h
        | cons ip0 rest =>
          cases hu : inUse ip0 with
          | true =>
            rw [allocGo_reject inUse fuel iters i n c0 ip0 rest hin hIt hu] at h
            simp only [List.head?_cons, Option.some.injEq] at h
            rw [← h]
          | false =>
            rw [allocGo_accept inUse fuel iters i n c0 ip0 rest hin hIt hu] at h
            simp only [List.head?_cons, Option.some.injEq] at h
            rw [← h]
    · rw [allocGo_stop inUse fuel iters i n hin] at h
      simp at h

/-- A rejected probe is immediately followed (if the run goes on) by a
probe from the same subnet: the loop does not advance the round-robin
index when the provider reports a conflict. -/
theorem allocGo_reject_next_idx (inUse : Nat → Bool) :
    ∀ (fuel : Nat) (iters : List (Cidr × List Nat)) (i n k : Nat) (d d2 : Draw),
      (allocGo inUse fuel iters i n).draws[k]? = some d → d.accepted = false →
      (allocGo inUse fuel iters i n).draws[k + 1]? = some d2 → d2.idx = d.idx := by
  intro fuel
  induction fuel with
  | zero => intro iters i n k d d2 h _ _; simp [allocGo] at h
  | succ fuel ih =>
    intro iters i n k d d2 h hacc h2
    by_cases hin : i < n
    · rcases hIt : iters[i % iters.length]? with _ | ⟨c0, hosts⟩
      · rw [allocGo_empty inUse fuel iters i n hin hIt] at h
        simp at h
      · cases hosts with
        | nil =>
          rw [allocGo_depleted inUse fuel iters i n c0 hin hIt] at h
          simp at h
        | cons ip0 rest =>
          have hsetlen : (iters.set (i % iters.length) (c0, rest)).length = iters.length :=
            List.length_set iters _ _
          cases hu : inUse ip0 with
          | true =>
            rw [allocGo_reject inUse fuel iters i n c0 ip0 rest hin hIt hu] at h h2
            cases k with
            | zero =>
              simp only [List.getElem?_cons_zero, Option.some.injEq] at h
              simp only [List.getElem?_cons_succ] at h2
              have hd2 : (allocGo inUse fuel (iters.set (i % iters.length) (c0, rest))
                  i n).draws.head? = some d2 := by
                rw [List.head?_eq_getElem?]
                exact h2
              rw [allocGo_head_idx inUse fuel _ i n d2 hd2, hsetlen, ← h]
            | succ k =>
              simp only [List.getElem?_cons_succ] at h h2
              exact ih _ i n k d d2 h hacc h2
          | false =>
            rw [allocGo_accept inUse fuel iters i n c0 ip0 rest hin hIt hu] at h h2
            cases k with
            | zero =>
              simp only [List.getElem?_cons_zero, Option.some.injEq] at h
              rw [← h] at hacc
              simp at hacc
            | succ k =>
              simp only [List.getElem?_cons_succ] at h h2
              exact ih _ (i + 1) n k d d2 h hacc h2
    · rw [allocGo_stop inUse fuel iters i n hin] at h
      simp at h

/-! ### The generator: skip phase and end-to-end facts -/

/-- A successful reserved-address skip drops exactly the first `n`
addresses. -/
theorem skipReserved_ok (cidr : Cidr) :
    ∀ (n : Nat) (hosts l : List Nat), skipReserved cidr n hosts = .ok l → l = hosts.drop n := by
  intro n
  induction n with
  | zero => intro hosts l h; simp [skipReserved] at h; simp [h]
  | succ n ih =>
    intro hosts l h
    cases hosts with
    | nil => simp [skipReserved] at h
    | cons a rest => exact ih rest l h

/-- A failing reserved-address skip raises the pool-depletion exception
with the subnet's own CIDR block, and can only happen on a host sequence
shorter than the skip count. -/
theorem skipReserved_err (cidr : Cidr) :
    ∀ (n : Nat) (hosts : List Nat) (e : AllocError), skipReserved cidr n hosts = .error e →
      e = .poolDepleted cidr ∧ hosts.length < n := by
  intro n
  induction n with
  | zero => intro hosts e h; simp [skipReserved] at h
  | succ n ih =>
    intro hosts e h
    cases hosts with
    | nil =>
      simp [skipReserved] at h
      simp [← h]
    | cons a rest =>
      obtain ⟨he, hl⟩ := ih rest e h
      exact ⟨he, by simp only [List.length_cons]; omega⟩

/-- Characterisation of a successful skip phase: one iterator per subnet,
in order, holding the subnet's host sequence minus its reserved head. -/
theorem initIters_ok :
    ∀ (subnets : List Subnet) (iters : List (Cidr × List Nat)),
      initIters subnets = .ok iters →
      iters = subnets.map
        (fun s => (s.cidrBlock, s.cidrBlock.iterHosts.drop reservedAddressCount)) := by
  intro subnets
  induction subnets with
  | nil => intro iters h; simp [initIters] at h; simp [← h]
  | cons s rest ih =>
    intro iters h
    rw [initIters] at h
    cases hsk : skipReserved s.cidrBlock reservedAddressCount s.cidrBlock.iterHosts with
    | error e => rw [hsk] at h; simp at h
    | ok hosts =>
      rw [hsk] at h
      cases hrest : initIters rest with
      | error e => rw [hrest] at h; simp at h
      | ok others =>
        rw [hrest] at h
        simp only [Except.ok.injEq] at h
        rw [← h, ih others hrest, skipReserved_ok s.cidrBlock _ _ hosts hsk]
        simp

/-- A failing skip phase raises pool depletion for a subnet whose host
sequence is shorter than the reserved skip count. -/
theorem initIters_err :
    ∀ (subnets : List Subnet) (e : AllocError), initIters subnets = .error e →
      ∃ s ∈ subnets, e = .poolDepleted s.cidrBlock ∧
        s.cidrBlock.iterHosts.length < reservedAddressCount := by
  intro subnets
  induction subnets with
  | nil => intro e h; simp [initIters] at h
  | cons s rest ih =>
    intro e h
    rw [initIters] at h
    cases hsk : skipReserved s.cidrBlock reservedAddressCount s.cidrBlock.iterHosts with
    | error e0 =>
      rw [hsk] at h
      simp only [Except.error.injEq] at h
      obtain ⟨he, hl⟩ := skipReserved_err s.cidrBlock _ _ e0 hsk
      exact ⟨s, by simp, by rw [← h, he], hl⟩
    | ok hosts =>
      rw [hsk] at h
      cases hrest : initIters rest with
      | error e0 =>
        rw [hrest] at h
        simp only [Except.error.injEq] at h
        obtain ⟨s0, hs0, he, hl⟩ := ih e0 hrest
        exact ⟨s0, by simp [hs0], by rw [← h, he], hl⟩
      | ok others => rw [hrest] at h; simp at h

/-- The post-skip pools form a sublist of the full host pools. -/
theorem flatten_drop_sublist (subnets : List Subnet) :
    ((subnets.map (fun s => s.cidrBlock.iterHosts.drop reservedAddressCount)).flatten).Sublist
      ((subnets.map (fun s => s.cidrBlock.iterHosts)).flatten) := by
  induction subnets with
  | nil => simp
  | cons s rest ih => simpa using List.Sublist.append (List.drop_sublist _ _) ih

/-- A subnet's host sequence has no duplicates. -/
theorem iterHosts_nodup (c : Cidr) : c.iterHosts.Nodup := by
  unfold Cidr.iterHosts
  refine List.Nodup.sublist (List.dropLast_sublist _)
    (List.Nodup.sublist (List.drop_sublist _ _) ?_)
  exact List.Nodup.map (fun a b hab => by omega) (List.nodup_range _)

/-- In a duplicate-free list, an element of the dropped part never occurs
in the taken part. -/
theorem mem_drop_not_mem_take {l : List Nat} {n : Nat} (hnd : l.Nodup) {a : Nat}
    (ha : a ∈ l.drop n) : a ∉ l.take n := by
  intro ht
  rw [← List.take_append_drop n l, List.nodup_append] at hnd
  exact hnd.2.2 ht ha

/-- Unfolding of the generator when the skip phase succeeds. -/
theorem generate_eq_ok (inUse : Nat → Bool) (subnets : List Subnet) (n : Nat)
    (iters : List (Cidr × List Nat)) (hit : initIters subnets = .ok iters) :
    generate_private_ip_addresses inUse subnets n
      = allocGo inUse ((iters.map (fun p => p.2.length)).sum + 1) iters 0 n := by
  unfold generate_private_ip_addresses
  rw [hit]

/-- Unfolding of the generator when the skip phase raises. -/
theorem generate_eq_err (inUse : Nat → Bool) (subnets : List Subnet) (n : Nat)
    (e : AllocError) (hit : initIters subnets = .error e) :
    generate_private_ip_addresses inUse subnets n = ⟨[], [], some e⟩ := by
  unfold generate_private_ip_addresses
  rw [hit]

/-- Every address the generator yields belongs to the post-skip host
sequence of one of its subnets, and the provider reported it free. -/
theorem generate_ips_mem (inUse : Nat → Bool) (subnets : List Subnet) (n : Nat) :
    ∀ ip ∈ (generate_private_ip_addresses inUse subnets n).ips,
      (∃ s ∈ subnets, ip ∈ s.cidrBlock.iterHosts.drop reservedAddressCount) ∧
        inUse ip = false := by
  intro ip hip
  cases hit : initIters subnets with
  | error e => rw [generate_eq_err inUse subnets n e hit] at hip; simp at hip
  | ok iters =>
    rw [generate_eq_ok inUse subnets n iters hit] at hip
    obtain ⟨hm, hf⟩ := allocGo_ips_mem inUse _ iters 0 n ip hip
    refine ⟨?_, hf⟩
    rw [initIters_ok subnets iters hit] at hm
    simp only [List.map_map] at hm
    rw [List.mem_flatten] at hm
    obtain ⟨l, hl, hml⟩ := hm
    rw [List.mem_map] at hl
    obtain ⟨s, hs, rfl⟩ := hl
    exact ⟨s, hs, hml⟩

/-- A generator run that raises no exception yields exactly the quota. -/
theorem generate_ips_length (inUse : Nat → Bool) (subnets : List Subnet) (n : Nat)
    (h : (generate_private_ip_addresses inUse subnets n).err = none) :
    (generate_private_ip_addresses inUse subnets n).ips.length = n := by
  cases hit : initIters subnets with
  | error e => rw [generate_eq_err inUse subnets n e hit] at h; simp at h
  | ok iters =>
    rw [generate_eq_ok inUse subnets n iters hit] at h ⊢
    simpa using allocGo_ips_length inUse _ iters 0 n h

/-- If the full host pools across the subnets hold no duplicate address,
the generator yields no duplicate address. -/
theorem generate_ips_nodup (inUse : Nat → Bool) (subnets : List Subnet) (n : Nat)
    (hpool : (((subnets.map (fun s => s.cidrBlock.iterHosts)).flatten)).Nodup) :
    ((generate_private_ip_addresses inUse subnets n).ips).Nodup := by
  cases hit : initIters subnets with
  | error e => rw [generate_eq_err inUse subnets n e hit]; simp
  | ok iters =>
    rw [generate_eq_ok inUse subnets n iters hit]
    apply allocGo_ips_nodup
    rw [initIters_ok subnets iters hit]
    simp only [List.map_map]
    exact List.Nodup.sublist (flatten_drop_sublist subnets) hpool

/-- On a non-empty subnet list the generator either fills the quota or
raises pool depletion: the technical markers of the embedding are dead. -/
theorem generate_err_cases (inUse : Nat → Bool) (subnets : List Subnet) (n : Nat)
    (hne : subnets ≠ []) :
    (generate_private_ip_addresses inUse subnets n).err = none ∨
      ∃ c, (generate_private_ip_addresses inUse subnets n).err = some (.poolDepleted c) := by
  cases hit : initIters subnets with
  | error e =>
    obtain ⟨s, _, he, _⟩ := initIters_err subnets e hit
    rw [generate_eq_err inUse subnets n e hit]
    exact Or.inr ⟨s.cidrBlock, by simp [he]⟩
  | ok iters =>
    rw [generate_eq_ok inUse subnets n iters hit]
    apply allocGo_err_cases
    · rw [List.length_flatten]
      simp only [List.map_map, Function.comp_def]
      omega
    · intro hemp
      rw [initIters_ok subnets iters hit] at hemp
      exact hne (List.map_eq_nil_iff.mp hemp)

/-- A pool-depletion exception from the generator names the CIDR block of
one of the region's subnets. -/
theorem generate_depleted_mem (inUse : Nat → Bool) (subnets : List Subnet) (n : Nat)
    (c : Cidr)
    (h : (generate_private_ip_addresses inUse subnets n).err = some (.poolDepleted c)) :
    ∃ s ∈ subnets, s.cidrBlock = c := by
  cases hit : initIters subnets with
  | error e =>
    rw [generate_eq_err inUse subnets n e hit] at h
    simp only [Option.some.injEq] at h
    obtain ⟨s, hs, he, _⟩ := initIters_err subnets e hit
    rw [h] at he
    refine ⟨s, hs, ?_⟩
    injection he with h2
    exact h2.symm
  | ok iters =>
    rw [generate_eq_ok inUse subnets n iters hit] at h
    have hm := allocGo_depleted_mem inUse _ iters 0 n c h
    rw [initIters_ok subnets iters hit] at hm
    simp only [List.map_map] at hm
    rw [List.mem_map] at hm
    obtain ⟨s, hs, hc⟩ := hm
    exact ⟨s, hs, hc⟩

/-! ### The per-run allocation over regions -/

/-- The private addresses recorded for a region are exactly the addresses
its generator yielded, in order. -/
theorem buildAddresses_privates (dmz : Bool) (supply : Nat → Nat × Nat) (ips : List Nat) :
    (buildAddresses dmz supply ips).map (fun a => a.privateIp) = ips := by
  unfold buildAddresses
  rw [List.map_map]
  have h : ∀ q ∈ ips.enum,
      ((fun a => a.privateIp) ∘ fun q => mkAddress dmz supply q.1 q.2) q = Prod.snd q := by
    intro q _
    cases dmz <;> simp [mkAddress]
  rw [List.map_congr_left h, List.enum_map_snd]

/-- One address record per yielded address. -/
theorem buildAddresses_length (dmz : Bool) (supply : Nat → Nat × Nat) (ips : List Nat) :
    (buildAddresses dmz supply ips).length = ips.length := by
  unfold buildAddresses
  rw [List.length_map, List.enum_length]

/-- Unfolding of `allocate_ip_addresses` when a region's generator
raises: that region keeps its partial address list, later regions are
never visited, and the exception is pending. -/
theorem allocate_cons_err (inUse : String → Nat → Bool) (supply : String → Nat → Nat × Nat)
    (dmz : Bool) (n : Nat) (region : String) (subs : List Subnet)
    (rest : List (String × List Subnet)) (e : AllocError)
    (hg : (generate_private_ip_addresses (inUse region) subs n).err = some e) :
    allocate_ip_addresses inUse supply dmz n ((region, subs) :: rest)
      = ([(region, buildAddresses dmz (supply region)
            (generate_private_ip_addresses (inUse region) subs n).ips)], some e) := by
  simp only [allocate_ip_addresses, hg]

/-- Unfolding of `allocate_ip_addresses` when a region's generator
finishes cleanly: record its addresses and move on. -/
theorem allocate_cons_ok (inUse : String → Nat → Bool) (supply : String → Nat → Nat × Nat)
    (dmz : Bool) (n : Nat) (region : String) (subs : List Subnet)
    (rest : List (String × List Subnet))
    (hg : (generate_private_ip_addresses (inUse region) subs n).err = none) :
    allocate_ip_addresses inUse supply dmz n ((region, subs) :: rest)
      = ((region, buildAddresses dmz (supply region)
            (generate_private_ip_addresses (inUse region) subs n).ips)
          :: (allocate_ip_addresses inUse supply dmz n rest).1,
         (allocate_ip_addresses inUse supply dmz n rest).2) := by
  simp only [allocate_ip_addresses, hg]

/-- Characterisation of an exception-free allocation run: every region's
generator ended cleanly and the recorded topology is the per-region
address build, in region order. -/
theorem allocate_ok_eq (inUse : String → Nat → Bool) (supply : String → Nat → Nat × Nat)
    (dmz : Bool) (n : Nat) :
    ∀ (rs : List (String × List Subnet)) (result : List (String × List Address)),
      allocate_ip_addresses inUse supply dmz n rs = (result, none) →
      (∀ p ∈ rs, (generate_private_ip_addresses (inUse p.1) p.2 n).err = none) ∧
        result = rs.map (fun p => (p.1, buildAddresses dmz (supply p.1)
          (generate_private_ip_addresses (inUse p.1) p.2 n).ips)) := by
  intro rs
  induction rs with
  | nil =>
    intro result h
    simp only [allocate_ip_addresses, Prod.mk.injEq] at h
    simp [← h.1]
  | cons p rest ih =>
    intro result h
    obtain ⟨region, subs⟩ := p
    cases hg : (generate_private_ip_addresses (inUse region) subs n).err with
    | some e =>
      rw [allocate_cons_err inUse supply dmz n region subs rest e hg] at h
      simp at h
    | none =>
      rw [allocate_cons_ok inUse supply dmz n region subs rest hg] at h
      simp only [Prod.mk.injEq] at h
      obtain ⟨hres, herr⟩ := h
      have hrest : allocate_ip_addresses inUse supply dmz n rest
          = ((allocate_ip_addresses inUse supply dmz n rest).1, none) := by
        rw [← herr]
      obtain ⟨hall, heq⟩ := ih _ hrest
      constructor
      · intro q hq
        rcases List.mem_cons.mp hq with rfl | hq2
        · exact hg
        · exact hall q hq2
      · rw [← hres, heq]
        simp

/-- The run pool splits region by region. -/
theorem regionHostPool_cons (p : String × List Subnet) (rest : List (String × List Subnet)) :
    regionHostPool (p :: rest)
      = ((p.2.map (fun s => s.cidrBlock.iterHosts)).flatten) ++ regionHostPool rest := by
  simp [regionHostPool]

/-- Every private address an allocation run records comes from the host
pool of one of the run's subnets. -/
theorem allocate_privates_mem (inUse : String → Nat → Bool) (supply : String → Nat → Nat × Nat)
    (dmz : Bool) (n : Nat) :
    ∀ (rs : List (String × List Subnet)) (result : List (String × List Address))
      (err2 : Option AllocError),
      allocate_ip_addresses inUse supply dmz n rs = (result, err2) →
      ∀ x ∈ (result.map (fun p => p.2.map (fun a => a.privateIp))).flatten,
        x ∈ regionHostPool rs := by
  intro rs
  induction rs with
  | nil =>
    intro result err2 h x hx
    simp only [allocate_ip_addresses, Prod.mk.injEq] at h
    rw [← h.1] at hx
    simp at hx
  | cons p rest ih =>
    intro result err2 h x hx
    obtain ⟨region, subs⟩ := p
    rw [regionHostPool_cons]
    have hgen : ∀ y ∈ (generate_private_ip_addresses (inUse region) subs n).ips,
        y ∈ (subs.map (fun s => s.cidrBlock.iterHosts)).flatten := by
      intro y hy
      obtain ⟨⟨s, hs, hd⟩, _⟩ := generate_ips_mem (inUse region) subs n y hy
      exact List.mem_flatten.mpr ⟨s.cidrBlock.iterHosts,
        List.mem_map.mpr ⟨s, hs, rfl⟩, List.mem_of_mem_drop hd⟩
    cases hg : (generate_private_ip_addresses (inUse region) subs n).err with
    | some e =>
      rw [allocate_cons_err inUse supply dmz n region subs rest e hg] at h
      simp only [Prod.mk.injEq] at h
      rw [← h.1] at hx
      simp only [List.map_cons, List.map_nil, List.flatten_cons, List.flatten_nil,
        List.append_nil, buildAddresses_privates] at hx
      exact List.mem_append.mpr (Or.inl (hgen x hx))
    | none =>
      rw [allocate_cons_ok inUse supply dmz n region subs rest hg] at h
      simp only [Prod.mk.injEq] at h
      rw [← h.1] at hx
      simp only [List.map_cons, List.flatten_cons, buildAddresses_privates] at hx
      rcases List.mem_append.mp hx with h1 | h2
      · exact List.mem_append.mpr (Or.inl (hgen x h1))
      · exact List.mem_append.mpr (Or.inr (ih _ _ rfl x h2))

/-- If no address occurs in two places of the run's host pools, then no
private address is recorded twice across the whole run. -/
theorem allocate_privates_nodup (inUse : String → Nat → Bool)
    (supply : String → Nat → Nat × Nat) (dmz : Bool) (n : Nat) :
    ∀ (rs : List (String × List Subnet)) (result : List (String × List Address))
      (err2 : Option AllocError),
      allocate_ip_addresses inUse supply dmz n rs = (result, err2) →
      (regionHostPool rs).Nodup →
      ((result.map (fun p => p.2.map (fun a => a.privateIp))).flatten).Nodup := by
  intro rs
  induction rs with
  | nil =>
    intro result err2 h _
    simp only [allocate_ip_addresses, Prod.mk.injEq] at h
    rw [← h.1]
    simp
  | cons p rest ih =>
    intro result err2 h hpool
    obtain ⟨region, subs⟩ := p
    rw [regionHostPool_cons] at hpool
    rw [List.nodup_append] at hpool
    obtain ⟨hp1, hp2, hdisj⟩ := hpool
    have hgen : ∀ y ∈ (generate_private_ip_addresses (inUse region) subs n).ips,
        y ∈ (subs.map (fun s => s.cidrBlock.iterHosts)).flatten := by
      intro y hy
      obtain ⟨⟨s, hs, hd⟩, _⟩ := generate_ips_mem (inUse region) subs n y hy
      exact List.mem_flatten.mpr ⟨s.cidrBlock.iterHosts,
        List.mem_map.mpr ⟨s, hs, rfl⟩, List.mem_of_mem_drop hd⟩
    cases hg : (generate_private_ip_addresses (inUse region) subs n).err with
    | some e =>
      rw [allocate_cons_err inUse supply dmz n region subs rest e hg] at h
      simp only [Prod.mk.injEq] at h
      rw [← h.1]
      simp only [List.map_cons, List.map_nil, List.flatten_cons, List.flatten_nil,
        List.append_nil, buildAddresses_privates]
      exact generate_ips_nodup (inUse region) subs n hp1
    | none =>
      rw [allocate_cons_ok inUse supply dmz n region subs rest hg] at h
      simp only [Prod.mk.injEq] at h
      rw [← h.1]
      simp only [List.map_cons, List.flatten_cons, buildAddresses_privates]
      rw [List.nodup_append]
      refine ⟨generate_ips_nodup (inUse region) subs n hp1, ih _ _ rfl hp2, ?_⟩
      intro a ha hb
      exact hdisj (hgen a ha) (allocate_privates_mem inUse supply dmz n rest _ _ rfl a hb)

/-! ### Claim theorems -/

/-- C6: for every subnet, the Address Allocator never yields any of the
first `reservedAddressCount` (= 10) addresses of that subnet's
host-address sequence; every yielded address comes from the subnet's
sequence at position 10 or later. -/
theorem c6_reserved_skip (inUse : Nat → Bool) (subnets : List Subnet) (n : Nat) :
    ∀ ip ∈ (generate_private_ip_addresses inUse subnets n).ips,
      ∃ s ∈ subnets, ip ∈ s.cidrBlock.iterHosts.drop reservedAddressCount ∧
        ip ∉ s.cidrBlock.iterHosts.take reservedAddressCount := by
  intro ip hip
  obtain ⟨⟨s, hs, hd⟩, _⟩ := generate_ips_mem inUse subnets n ip hip
  exact ⟨s, hs, hd, mem_drop_not_mem_take (iterHosts_nodup s.cidrBlock) hd⟩

/-- Witness for c6_reserved_skip: in the concrete internal-subnet run the
first yielded address, 11, lies in the post-skip part of the host
sequence `1..14` and not among its first ten entries. -/
theorem c6_witness :
    ∃ s ∈ [exSubnet], (11 : Nat) ∈ s.cidrBlock.iterHosts.drop reservedAddressCount ∧
      (11 : Nat) ∉ s.cidrBlock.iterHosts.take reservedAddressCount :=
  c6_reserved_skip (fun _ => false) [exSubnet] 1 11 (by decide)

/-- C5: the generator raises `IpAddressPoolDepletedException` exactly
when a subnet's host sequence is exhausted before the region's quota is
filled: an exception-free run fills the quota; on a non-empty subnet
list the only possible exception is pool depletion; the exception names
the CIDR block of one of the region's subnets and can only arise with
the quota unfilled (or during the reserved skip, before any yield); and
the allocation loop on a subnet holding a single usable host after the
reserved skip, at quota 2, raises pool depletion naming that subnet's
CIDR block after yielding only the one address. -/
theorem c5_pool_depleted (inUse : Nat → Bool) (subnets : List Subnet) (n : Nat)
    (hne : subnets ≠ []) :
    ((generate_private_ip_addresses inUse subnets n).err = none →
        (generate_private_ip_addresses inUse subnets n).ips.length = n) ∧
      (∀ c, (generate_private_ip_addresses inUse subnets n).err = some (.poolDepleted c) →
        (∃ s ∈ subnets, s.cidrBlock = c) ∧
          ((generate_private_ip_addresses inUse subnets n).ips.length < n ∨
            (generate_private_ip_addresses inUse subnets n).ips.length = 0)) ∧
      ((generate_private_ip_addresses inUse subnets n).err = none ∨
        ∃ c, (generate_private_ip_addresses inUse subnets n).err = some (.poolDepleted c)) ∧
      (allocGo (fun _ => false) 2 [(exCidr, [42])] 0 2
        = ⟨[⟨0, 42, true⟩], [42], some (.poolDepleted exCidr)⟩) := by
  refine ⟨generate_ips_length inUse subnets n, ?_, generate_err_cases inUse subnets n hne,
    by decide⟩
  intro c h
  refine ⟨generate_depleted_mem inUse subnets n c h, ?_⟩
  cases hit : initIters subnets with
  | error e =>
    rw [generate_eq_err inUse subnets n e hit]
    simp
  | ok iters =>
    rw [generate_eq_ok inUse subnets n iters hit] at h ⊢
    exact Or.inl (by simpa using allocGo_depleted_lt inUse _ iters 0 n c h)

/-- Witness for c5_pool_depleted: the internal `/28` subnet has 4 usable
hosts after the reserved skip, so quota 5 depletes the pool; the raised
exception names that subnet's CIDR block. -/
theorem c5_witness :
    (∃ s ∈ [exSubnet], s.cidrBlock = exCidr) ∧
      ((generate_private_ip_addresses (fun _ => false) [exSubnet] 5).ips.length < 5 ∨
        (generate_private_ip_addresses (fun _ => false) [exSubnet] 5).ips.length = 0) :=
  ((c5_pool_depleted (fun _ => false) [exSubnet] 5 (by decide)).2.1 exCidr (by decide))

/-- C4: the `k`-th accepted address (0-based, counting accepted probes
only) is drawn from subnet `k mod S`; the accepted probes are exactly
the yielded addresses; and a candidate reported in use is followed by a
candidate from the same subnet's sequence, not the next subnet of the
rotation. -/
theorem c4_round_robin (inUse : Nat → Bool) (subnets : List Subnet) (n : Nat) :
    (((generate_private_ip_addresses inUse subnets n).draws.filter
        (fun d => d.accepted)).map (fun d => d.ip)
          = (generate_private_ip_addresses inUse subnets n).ips) ∧
      (((generate_private_ip_addresses inUse subnets n).draws.filter
        (fun d => d.accepted)).map (fun d => d.idx)
          = (List.range (generate_private_ip_addresses inUse subnets n).ips.length).map
              (fun j => j % subnets.length)) ∧
      (∀ (k : Nat) (d d2 : Draw),
        (generate_private_ip_addresses inUse subnets n).draws[k]? = some d →
        d.accepted = false →
        (generate_private_ip_addresses inUse subnets n).draws[k + 1]? = some d2 →
        d2.idx = d.idx) := by
  cases hit : initIters subnets with
  | error e =>
    rw [generate_eq_err inUse subnets n e hit]
    refine ⟨by simp, by simp, ?_⟩
    intro k d d2 h
    simp at h
  | ok iters =>
    have hlen : iters.length = subnets.length := by
      rw [initIters_ok subnets iters hit]
      simp
    rw [generate_eq_ok inUse subnets n iters hit]
    obtain ⟨ha, hb⟩ := allocGo_draws_accepted inUse ((iters.map (fun p => p.2.length)).sum + 1)
      iters 0 n
    refine ⟨ha, ?_, ?_⟩
    · rw [hb, List.range_eq_range', hlen]
    · intro k d d2 h1 h2 h3
      exact allocGo_reject_next_idx inUse _ iters 0 n k d d2 h1 h2 h3

/-- Witness for c4_round_robin: with address 11 reported in use, the
rejected first probe is followed by a probe of the same subnet (index
0), which yields 12. -/
theorem c4_witness : (Draw.mk 0 12 true).idx = (Draw.mk 0 11 false).idx :=
  (c4_round_robin (fun ip => ip == 11) [exSubnet] 1).2.2 0
    (Draw.mk 0 11 false) (Draw.mk 0 12 true) (by decide) (by decide) (by decide)

/-- C1 (amended): an exception-free allocation run records exactly the
quota of addresses for every region, never records an address whose
in-use query returned true, and — provided no address occurs twice among
the host pools of the run's subnets (pairwise-disjoint CIDR blocks) — no
private address is recorded twice across the whole run. -/
theorem c1_allocation_run (inUse : String → Nat → Bool) (supply : String → Nat → Nat × Nat)
    (dmz : Bool) (n : Nat) (rs : List (String × List Subnet))
    (result : List (String × List Address))
    (hrun : allocate_ip_addresses inUse supply dmz n rs = (result, none))
    (hpool : (regionHostPool rs).Nodup) :
    (∀ p ∈ result, p.2.length = n) ∧
      (((result.map (fun p => p.2.map (fun a => a.privateIp))).flatten).Nodup) ∧
      (∀ p ∈ result, ∀ a ∈ p.2, inUse p.1 a.privateIp = false) := by
  obtain ⟨hall, heq⟩ := allocate_ok_eq inUse supply dmz n rs result hrun
  refine ⟨?_, allocate_privates_nodup inUse supply dmz n rs result none hrun hpool, ?_⟩
  · intro p hp
    rw [heq] at hp
    obtain ⟨q, hq, rfl⟩ := List.mem_map.mp hp
    simp only [buildAddresses_length]
    exact generate_ips_length (inUse q.1) q.2 n (hall q hq)
  · intro p hp a ha
    rw [heq] at hp
    obtain ⟨q, hq, rfl⟩ := List.mem_map.mp hp
    have hpm : a.privateIp ∈ (buildAddresses dmz (supply q.1)
        (generate_private_ip_addresses (inUse q.1) q.2 n).ips).map (fun x => x.privateIp) :=
      List.mem_map.mpr ⟨a, ha, rfl⟩
    rw [buildAddresses_privates] at hpm
    exact (generate_ips_mem (inUse q.1) q.2 n a.privateIp hpm).2

/-- Witness for c1_allocation_run: a two-region run over disjoint `/28`
blocks at quota 1 records one address per region, all distinct, none in
use. -/
theorem c1_witness :
    (∀ p ∈ disjointRunResult, p.2.length = 1) ∧
      (((disjointRunResult.map (fun p => p.2.map (fun a => a.privateIp))).flatten).Nodup) ∧
      (∀ p ∈ disjointRunResult, ∀ a ∈ p.2, inUseNone p.1 a.privateIp = false) :=
  c1_allocation_run inUseNone supplySeq false 1 disjointRunPairs disjointRunResult
    (by decide) (by decide)

/-- Counterexample to C1 as stated: two regions whose subnets share the
CIDR block `exCidr` both record private address 11 at quota 1, so an
address appears twice across the run even though every region's quota is
met and no in-use address was yielded. -/
theorem c1_counterexample :
    ¬ ((((allocate_ip_addresses inUseNone supplySeq false 1 dupRunPairs).1.map
        (fun p => p.2.map (fun a => a.privateIp))).flatten).Nodup) := by
  decide

/-- C8: the Seed Selector is pure and deterministic (it is a function of
the topology alone); per region it returns the first `seed_count`
entries unchanged and in order; it is idempotent; and
`seed_count = min(requested_cluster_size, 3)` exactly. -/
theorem c8_seed_selector (nodeIps : List (String × List Address)) (clusterSize sc : Nat) :
    (pick_seed_node_ips nodeIps sc = nodeIps.map (fun p => (p.1, p.2.take sc))) ∧
      (pick_seed_node_ips (pick_seed_node_ips nodeIps sc) sc
        = pick_seed_node_ips nodeIps sc) ∧
      (seedCountOf clusterSize = min clusterSize 3) := by
  have hmap : ∀ (l : List (String × List Address)),
      pick_seed_node_ips l sc = l.map (fun p => (p.1, p.2.take sc)) := by
    intro l
    induction l with
    | nil => simp [pick_seed_node_ips]
    | cons p rest ih =>
      obtain ⟨region, ips⟩ := p
      simp [pick_seed_node_ips, ih]
  refine ⟨hmap nodeIps, ?_, rfl⟩
  rw [hmap, hmap, List.map_map]
  apply List.map_congr_left
  intro p _
  simp [List.take_take]

/-- Security-group deletions pass the delete recogniser and fail the
release recogniser. -/
theorem filter_sg_deletes (sgs : List (String × String)) :
    ((sgs.map (fun p => CleanupEvent.deleteSecurityGroup p.1 p.2)).filter isDeleteSG
        = sgs.map (fun p => CleanupEvent.deleteSecurityGroup p.1 p.2)) ∧
      ((sgs.map (fun p => CleanupEvent.deleteSecurityGroup p.1 p.2)).filter isReleaseAddr
        = []) := by
  constructor
  · apply List.filter_eq_self.mpr
    intro e he
    obtain ⟨p, _, rfl⟩ := List.mem_map.mp he
    rfl
  · apply List.filter_eq_nil_iff.mpr
    intro e he
    obtain ⟨p, _, rfl⟩ := List.mem_map.mp he
    simp [isReleaseAddr]

/-- Address releases pass the release recogniser and fail the delete
recogniser. -/
theorem filter_addr_releases (nodeIps : List (String × List Address)) :
    (((nodeIps.map (fun p => p.2.map
        (fun ip => CleanupEvent.releaseAddress p.1 ip.allocationId))).flatten).filter
          isReleaseAddr
        = (nodeIps.map (fun p => p.2.map
            (fun ip => CleanupEvent.releaseAddress p.1 ip.allocationId))).flatten) ∧
      (((nodeIps.map (fun p => p.2.map
        (fun ip => CleanupEvent.releaseAddress p.1 ip.allocationId))).flatten).filter
          isDeleteSG = []) := by
  have hshape : ∀ e ∈ (nodeIps.map (fun p => p.2.map
      (fun ip => CleanupEvent.releaseAddress p.1 ip.allocationId))).flatten,
      ∃ r a, e = CleanupEvent.releaseAddress r a := by
    intro e he
    obtain ⟨l, hl, hel⟩ := List.mem_flatten.mp he
    obtain ⟨p, _, rfl⟩ := List.mem_map.mp hl
    obtain ⟨ip, _, rfl⟩ := List.mem_map.mp hel
    exact ⟨p.1, ip.allocationId, rfl⟩
  constructor
  · apply List.filter_eq_self.mpr
    intro e he
    obtain ⟨r, a, rfl⟩ := hshape e he
    rfl
  · apply List.filter_eq_nil_iff.mpr
    intro e he
    obtain ⟨r, a, rfl⟩ := hshape e he
    simp [isDeleteSG]

/-- C3: on any failure, the except block of `create_cluster` issues
exactly one `delete_security_group` per recorded access-control group,
in recording (creation) order; in public-facing mode exactly one
`release_address` per recorded address record, in recording order (and
none otherwise); and afterwards it re-raises the original exception
unchanged. -/
theorem c3_rollback (useDmz : Bool) (sgs : List (String × String))
    (nodeIps : List (String × List Address)) (e : RunError) :
    ((rollback_events useDmz sgs nodeIps).filter isDeleteSG
        = sgs.map (fun p => CleanupEvent.deleteSecurityGroup p.1 p.2)) ∧
      ((rollback_events useDmz sgs nodeIps).filter isReleaseAddr
        = (if useDmz then (nodeIps.map (fun p => p.2.map
            (fun ip => CleanupEvent.releaseAddress p.1 ip.allocationId))).flatten
          else [])) ∧
      (exceptHandler useDmz sgs nodeIps e
        = (rollback_events useDmz sgs nodeIps, Except.error e)) := by
  refine ⟨?_, ?_, rfl⟩ <;>
    cases useDmz <;>
      simp [rollback_events, List.filter_append, (filter_sg_deletes sgs).1,
        (filter_sg_deletes sgs).2, (filter_addr_releases nodeIps).1,
        (filter_addr_releases nodeIps).2]

/-- The region/address pairs of a topology, region by region. -/
theorem flattenRegionIps_cons (p : String × List Address) (rest : List (String × List Address)) :
    flattenRegionIps (p :: rest) = p.2.map (fun ip => (p.1, ip)) ++ flattenRegionIps rest := by
  simp [flattenRegionIps]

/-- When the pacing budget equals the number of seeds left to launch, the
seed loop emits exactly the launches separated by single 60-second
sleeps, with no sleep after the last launch. -/
theorem seedEvents_intersperse :
    ∀ (flat : List (String × Address)) (launched total : Nat),
      total = launched + flat.length →
      seedEvents flat launched total
        = List.intersperse (LaunchEvent.sleep 60)
            (flat.map (fun q => LaunchEvent.launch q.1 q.2.defaultIp true)) := by
  intro flat
  induction flat with
  | nil => intro launched total _; simp [seedEvents]
  | cons q rest ih =>
    intro launched total htot
    obtain ⟨region, ip⟩ := q
    cases rest with
    | nil =>
      have hnot : ¬ (launched + 1 < total) := by simp at htot; omega
      simp [seedEvents, hnot]
    | cons y t =>
      have hlt : launched + 1 < total := by simp at htot; omega
      have ih2 := ih (launched + 1) total (by simp at htot ⊢; omega)
      simp only [List.map_cons] at ih2 ⊢
      rw [seedEvents, if_pos hlt, ih2, List.intersperse_cons_cons]

/-- Seed picking takes exactly `sc` addresses of every region whose
topology has at least `sc` of them. -/
theorem pick_flat_length (nodeIps : List (String × List Address)) (sc : Nat)
    (hlen : ∀ p ∈ nodeIps, sc ≤ p.2.length) :
    (flattenRegionIps (pick_seed_node_ips nodeIps sc)).length = sc * nodeIps.length := by
  induction nodeIps with
  | nil => simp [flattenRegionIps, pick_seed_node_ips]
  | cons p rest ih =>
    obtain ⟨region, ips⟩ := p
    have h1 : sc ≤ ips.length := hlen (region, ips) (by simp)
    have ih2 := ih (fun q hq => hlen q (by simp [hq]))
    simp only [pick_seed_node_ips, flattenRegionIps_cons, List.length_append,
      List.length_map, List.length_take]
    rw [ih2, Nat.min_eq_left h1, List.length_cons, Nat.mul_succ]
    omega

/-- The per-region normal-node loop acts exactly on the addresses past
the first `sc`, sleeping before each launch. -/
theorem normalGo_eq_drop (region : String) (sc : Nat) :
    ∀ (ips : List Address) (i : Nat),
      normalGo region sc i ips
        = ((ips.drop (sc - i)).map (fun ip => [LaunchEvent.sleep 60,
            LaunchEvent.launch region ip.defaultIp false])).flatten := by
  intro ips
  induction ips with
  | nil => intro i; simp [normalGo]
  | cons ip rest ih =>
    intro i
    by_cases hc : sc ≤ i
    · have h0 : sc - i = 0 := by omega
      have h1 : sc - (i + 1) = 0 := by omega
      simp only [normalGo]
      rw [ih (i + 1), h0, h1]
      simp [hc]
    · have h0 : sc - i = (sc - (i + 1)) + 1 := by omega
      simp only [normalGo]
      rw [ih (i + 1), h0]
      simp [hc, List.drop_succ_cons]

/-- `launch_normal_nodes` emits, per region, a sleep followed by a launch
for every address past the seed slice. -/
theorem launch_normal_eq (nodeIps : List (String × List Address)) (sc : Nat) :
    launch_normal_nodes nodeIps sc
      = (nodeIps.map (fun p => ((p.2.drop sc).map (fun ip => [LaunchEvent.sleep 60,
          LaunchEvent.launch p.1 ip.defaultIp false])).flatten)).flatten := by
  unfold launch_normal_nodes
  congr 1
  apply List.map_congr_left
  intro p _
  rw [normalGo_eq_drop]
  simp

/-- C7: in the seed phase a single fixed 60-second sleep separates every
pair of consecutive seed launches across the whole run and none follows
the last seed launch (whenever the topology supplies the counted
`seed_count * len(regions)` seeds); in the normal phase the same sleep
precedes every normal-node launch, including the first. -/
theorem c7_pacing_delays (nodeIps : List (String × List Address)) (regions : List String)
    (sc : Nat) (hkeys : nodeIps.map (fun p => p.1) = regions)
    (hlen : ∀ p ∈ nodeIps, sc ≤ p.2.length) :
    (launch_seed_nodes sc regions (pick_seed_node_ips nodeIps sc)
        = List.intersperse (LaunchEvent.sleep 60)
            ((flattenRegionIps (pick_seed_node_ips nodeIps sc)).map
              (fun q => LaunchEvent.launch q.1 q.2.defaultIp true))) ∧
      (launch_normal_nodes nodeIps sc
        = (nodeIps.map (fun p => ((p.2.drop sc).map (fun ip => [LaunchEvent.sleep 60,
            LaunchEvent.launch p.1 ip.defaultIp false])).flatten)).flatten) := by
  refine ⟨?_, launch_normal_eq nodeIps sc⟩
  unfold launch_seed_nodes
  apply seedEvents_intersperse
  rw [pick_flat_length nodeIps sc hlen, ← hkeys, List.length_map]
  omega

/-- Witness for c7_pacing_delays: the one-region four-node topology with
three seeds gives the seed trace launch-sleep-launch-sleep-launch and
the normal trace sleep-launch. -/
theorem c7_witness :
    (launch_seed_nodes 3 ["r1"] (pick_seed_node_ips nodeIpsW 3)
        = List.intersperse (LaunchEvent.sleep 60)
            ((flattenRegionIps (pick_seed_node_ips nodeIpsW 3)).map
              (fun q => LaunchEvent.launch q.1 q.2.defaultIp true))) ∧
      (launch_normal_nodes nodeIpsW 3
        = (nodeIpsW.map (fun p => ((p.2.drop 3).map (fun ip => [LaunchEvent.sleep 60,
            LaunchEvent.launch p.1 ip.defaultIp false])).flatten)).flatten) :=
  c7_pacing_delays nodeIpsW ["r1"] 3 (by decide) (by decide)

/-- Counterexample to C7 as stated: when a supplied region is dropped by
the subnet filter, `total_seed_count = seed_count * len(regions)`
overcounts the seeds that exist, and the run's launch trace ends with a
60-second sleep directly after the very last seed launch. -/
theorem c7_counterexample :
    create_cluster cfgDropped provDropped
      = ([], Except.ok
          { nodeIps := [("r1", [mkAddr 11])], seedCount := 1,
            seedNodes := [("r1", [mkAddr 11])],
            events := [LaunchEvent.launch "r1" 11 true, LaunchEvent.sleep 60] }) := rfl

/-- A failing AMI resolution aborts the run before anything is created:
the handler has nothing to compensate and re-raises the error. -/
theorem create_cluster_ami_err (cfg : Config) (p : Provider) (e : RunError)
    (h : find_taupage_amis p.amiNames cfg.regions = .error e) :
    create_cluster cfg p = ([], Except.error e) := by
  unfold create_cluster
  rw [h]
  cases cfg.useDmz <;> simp [exceptHandler, rollback_events]

/-- Analysis of a successful run: the AMIs resolved, the allocation ended
cleanly, no compensation was issued, and the report carries the recorded
topology, the computed seed count and slice, and the two launch waves in
order. -/
theorem create_cluster_ok_inv (cfg : Config) (p : Provider) (cl : List CleanupEvent)
    (rep : SuccessReport) (h : create_cluster cfg p = (cl, Except.ok rep)) :
    cl = [] ∧
      (allocate_ip_addresses p.inUse p.elasticSupply cfg.useDmz cfg.clusterSize
        (get_subnets p.describeSubnets (if cfg.useDmz then "dmz-" else "internal-")
          cfg.regions)).2 = none ∧
      rep = { nodeIps := (allocate_ip_addresses p.inUse p.elasticSupply cfg.useDmz
                cfg.clusterSize (get_subnets p.describeSubnets
                  (if cfg.useDmz then "dmz-" else "internal-") cfg.regions)).1,
              seedCount := seedCountOf cfg.clusterSize,
              seedNodes := pick_seed_node_ips
                (allocate_ip_addresses p.inUse p.elasticSupply cfg.useDmz cfg.clusterSize
                  (get_subnets p.describeSubnets
                    (if cfg.useDmz then "dmz-" else "internal-") cfg.regions)).1
                (seedCountOf cfg.clusterSize),
              events := launch_seed_nodes (seedCountOf cfg.clusterSize) cfg.regions
                  (pick_seed_node_ips
                    (allocate_ip_addresses p.inUse p.elasticSupply cfg.useDmz
                      cfg.clusterSize (get_subnets p.describeSubnets
                        (if cfg.useDmz then "dmz-" else "internal-") cfg.regions)).1
                    (seedCountOf cfg.clusterSize))
                ++ launch_normal_nodes
                  (allocate_ip_addresses p.inUse p.elasticSupply cfg.useDmz cfg.clusterSize
                    (get_subnets p.describeSubnets
                      (if cfg.useDmz then "dmz-" else "internal-") cfg.regions)).1
                  (seedCountOf cfg.clusterSize) } := by
  unfold create_cluster at h
  cases hA : find_taupage_amis p.amiNames cfg.regions with
  | error e =>
    rw [hA] at h
    simp [exceptHandler] at h
  | ok amis =>
    rw [hA] at h
    dsimp only at h
    cases hAl : (allocate_ip_addresses p.inUse p.elasticSupply cfg.useDmz cfg.clusterSize
        (get_subnets p.describeSubnets (if cfg.useDmz then "dmz-" else "internal-")
          cfg.regions)).2 with
    | some e =>
      rw [hAl] at h
      simp [exceptHandler] at h
    | none =>
      rw [hAl] at h
      dsimp only at h
      cases hdns : (match cfg.hostedZone with
          | some z => setup_dns_records p.hostedZones z
          | none => Except.ok ()) with
      | error e =>
        rw [hdns] at h
        simp [exceptHandler] at h
      | ok u =>
        rw [hdns] at h
        dsimp only at h
        simp only [Prod.mk.injEq, Except.ok.injEq] at h
        exact ⟨h.1.symm, rfl, h.2.symm⟩

/-- Every event the seed loop emits is a seed launch or a sleep, never a
normal-node launch. -/
theorem seedEvents_no_normal :
    ∀ (flat : List (String × Address)) (launched total : Nat),
      ∀ e ∈ seedEvents flat launched total, isNormalLaunch e = false := by
  intro flat
  induction flat with
  | nil => intro launched total e he; simp [seedEvents] at he
  | cons q rest ih =>
    intro launched total e he
    obtain ⟨region, ip⟩ := q
    rw [seedEvents] at he
    rcases List.mem_cons.mp he with rfl | he2
    · rfl
    · by_cases hlt : launched + 1 < total
      · rw [if_pos hlt] at he2
        rcases List.mem_cons.mp he2 with rfl | he3
        · rfl
        · exact ih _ _ e he3
      · rw [if_neg hlt] at he2
        exact ih _ _ e he2

/-- Every event the per-region normal loop emits is a normal launch or a
sleep, never a seed launch. -/
theorem normalGo_no_seed (region : String) (sc : Nat) :
    ∀ (ips : List Address) (i : Nat), ∀ e ∈ normalGo region sc i ips,
      isSeedLaunch e = false := by
  intro ips
  induction ips with
  | nil => intro i e he; simp [normalGo] at he
  | cons ip rest ih =>
    intro i e he
    rw [normalGo] at he
    rcases List.mem_append.mp he with h1 | h2
    · by_cases hc : sc ≤ i
      · rw [if_pos hc] at h1
        rcases List.mem_cons.mp h1 with rfl | h3
        · rfl
        · rcases List.mem_cons.mp h3 with rfl | h4
          · rfl
          · simp at h4
      · rw [if_neg hc] at h1
        simp at h1
    · exact ih (i + 1) e h2

/-- The normal phase emits no seed launch. -/
theorem launch_normal_no_seed (nodeIps : List (String × List Address)) (sc : Nat) :
    ∀ e ∈ launch_normal_nodes nodeIps sc, isSeedLaunch e = false := by
  intro e he
  unfold launch_normal_nodes at he
  obtain ⟨l, hl, hel⟩ := List.mem_flatten.mp he
  obtain ⟨p, _, rfl⟩ := List.mem_map.mp hl
  exact normalGo_no_seed p.1 sc p.2 0 e hel

/-- C2: in every run that completes, any normal-node launch request
occurs strictly after every seed-node launch request of the whole run:
the launch trace is the seed wave followed by the normal wave. -/
theorem c2_seeds_before_normals (cfg : Config) (p : Provider) (cl : List CleanupEvent)
    (rep : SuccessReport) (hrun : create_cluster cfg p = (cl, Except.ok rep))
    (i j : Nat) (di dj : LaunchEvent)
    (hi : rep.events[i]? = some di) (hj : rep.events[j]? = some dj)
    (hni : isNormalLaunch di = true) (hsj : isSeedLaunch dj = true) : j < i := by
  obtain ⟨-, -, hrep⟩ := create_cluster_ok_inv cfg p cl rep hrun
  rw [hrep] at hi hj
  dsimp only at hi hj
  by_cases hiA : i < (launch_seed_nodes (seedCountOf cfg.clusterSize) cfg.regions
      (pick_seed_node_ips (allocate_ip_addresses p.inUse p.elasticSupply cfg.useDmz
        cfg.clusterSize (get_subnets p.describeSubnets
          (if cfg.useDmz then "dmz-" else "internal-") cfg.regions)).1
        (seedCountOf cfg.clusterSize))).length
  · exfalso
    rw [List.getElem?_append_left hiA] at hi
    have hmem := List.getElem?_mem hi
    have := seedEvents_no_normal _ _ _ di hmem
    rw [hni] at this
    simp at this
  · by_cases hjA : j < (launch_seed_nodes (seedCountOf cfg.clusterSize) cfg.regions
        (pick_seed_node_ips (allocate_ip_addresses p.inUse p.elasticSupply cfg.useDmz
          cfg.clusterSize (get_subnets p.describeSubnets
            (if cfg.useDmz then "dmz-" else "internal-") cfg.regions)).1
          (seedCountOf cfg.clusterSize))).length
    · omega
    · exfalso
      rw [List.getElem?_append_right (by omega)] at hj
      have hmem := List.getElem?_mem hj
      have := launch_normal_no_seed _ _ dj hmem
      rw [hsj] at this
      simp at this

/-- Witness for c2_seeds_before_normals: in the concrete four-node run
the normal launch sits at index 6 of the trace, after the seed launch at
index 0. -/
theorem c2_witness : (0 : Nat) < 6 :=
  c2_seeds_before_normals cfgSeedRun provInternal [] repW rfl 6 0
    (LaunchEvent.launch "r1" 14 false) (LaunchEvent.launch "r1" 11 true)
    rfl rfl rfl rfl

/-- A failing DNS-zone resolution aborts the run after address
allocation: the handler compensates over the recorded addresses (and the
empty security-group record) and re-raises the zone error. -/
theorem create_cluster_dns_err (cfg : Config) (p : Provider)
    (amis : List (String × String)) (z : String)
    (hA : find_taupage_amis p.amiNames cfg.regions = .ok amis)
    (hAl : (allocate_ip_addresses p.inUse p.elasticSupply cfg.useDmz cfg.clusterSize
      (get_subnets p.describeSubnets (if cfg.useDmz then "dmz-" else "internal-")
        cfg.regions)).2 = none)
    (hz : cfg.hostedZone = some z)
    (hmem : p.hostedZones.contains z = false) :
    create_cluster cfg p
      = (rollback_events cfg.useDmz []
          (allocate_ip_addresses p.inUse p.elasticSupply cfg.useDmz cfg.clusterSize
            (get_subnets p.describeSubnets (if cfg.useDmz then "dmz-" else "internal-")
              cfg.regions)).1,
         Except.error (RunError.hostedZoneNotFound z)) := by
  unfold create_cluster
  rw [hA]
  dsimp only
  rw [hAl]
  dsimp only
  rw [hz]
  dsimp only
  have hd : setup_dns_records p.hostedZones z
      = Except.error (RunError.hostedZoneNotFound z) := by
    unfold setup_dns_records
    rw [hmem]
    simp
  rw [hd]
  rfl

/-- C9 (amended): a failed machine-image resolution happens before
anything is created — the run aborts with no recorded state and no
compensation at all; a failed DNS-zone resolution, however, happens
after address allocation — no access-control group exists yet, so no
group deletion is issued, but the allocated addresses are already
recorded and the handler issues its release compensations over them (in
public-facing mode). -/
theorem c9_resolution_failures (cfg : Config) (p : Provider) :
    (∀ e, find_taupage_amis p.amiNames cfg.regions = Except.error e →
        create_cluster cfg p = ([], Except.error e)) ∧
      (∀ (amis : List (String × String)) (z : String),
        find_taupage_amis p.amiNames cfg.regions = Except.ok amis →
        (allocate_ip_addresses p.inUse p.elasticSupply cfg.useDmz cfg.clusterSize
          (get_subnets p.describeSubnets (if cfg.useDmz then "dmz-" else "internal-")
            cfg.regions)).2 = none →
        cfg.hostedZone = some z →
        p.hostedZones.contains z = false →
        create_cluster cfg p
            = (rollback_events cfg.useDmz []
                (allocate_ip_addresses p.inUse p.elasticSupply cfg.useDmz cfg.clusterSize
                  (get_subnets p.describeSubnets
                    (if cfg.useDmz then "dmz-" else "internal-") cfg.regions)).1,
               Except.error (RunError.hostedZoneNotFound z)) ∧
          (create_cluster cfg p).1.filter isDeleteSG = []) := by
  constructor
  · intro e he
    exact create_cluster_ami_err cfg p e he
  · intro amis z hA hAl hz hmem
    have heq := create_cluster_dns_err cfg p amis z hA hAl hz hmem
    refine ⟨heq, ?_⟩
    rw [heq]
    dsimp only
    unfold rollback_events
    rw [List.filter_append]
    cases cfg.useDmz <;>
      simp [(filter_addr_releases ((allocate_ip_addresses p.inUse p.elasticSupply
        false cfg.clusterSize (get_subnets p.describeSubnets
          "internal-" cfg.regions)).1)).2,
        (filter_addr_releases ((allocate_ip_addresses p.inUse p.elasticSupply
          true cfg.clusterSize (get_subnets p.describeSubnets
            "dmz-" cfg.regions)).1)).2]

/-- Witness for c9_resolution_failures: in the public-facing run whose
zone `z.` does not exist, the run fails with the zone error, its cleanup
contains no security-group deletion, and it compensates the one recorded
Elastic IP. -/
theorem c9_witness :
    (create_cluster cfgDmzZone provDmz).1.filter isDeleteSG = [] ∧
      (create_cluster cfgDmzZone provDmz).2
        = Except.error (RunError.hostedZoneNotFound "z.") := by
  have h := (c9_resolution_failures cfgDmzZone provDmz).2 [("r1", "Taupage-AMI-1")] "z."
    rfl rfl rfl rfl
  exact ⟨h.2, by rw [h.1]⟩

/-- Counterexample to C9 as stated: when the configured DNS zone cannot
be resolved, compensation is not absent — the public-facing run has
already allocated an Elastic IP, and the handler issues a release for
it. -/
theorem c9_counterexample :
    create_cluster cfgDmzZone provDmz
      = ([CleanupEvent.releaseAddress "r1" (some 500)],
         Except.error (RunError.hostedZoneNotFound "z.")) := rfl

/-- Seed picking is the per-region `take`. -/
theorem pick_seed_eq_map (l : List (String × List Address)) (sc : Nat) :
    pick_seed_node_ips l sc = l.map (fun p => (p.1, p.2.take sc)) := by
  induction l with
  | nil => simp [pick_seed_node_ips]
  | cons p rest ih =>
    obtain ⟨region, ips⟩ := p
    simp [pick_seed_node_ips, ih]

/-- C10 (amended): in every run that completes, each region that
`get_subnets` retained (at least one subnet passed the name filter)
appears in the recorded topology with exactly the requested cluster size
of addresses, and the region's entry of the seed assignment is the first
`seed_count` of those addresses, in order. -/
theorem c10_topology_lengths (cfg : Config) (p : Provider) (cl : List CleanupEvent)
    (rep : SuccessReport) (hrun : create_cluster cfg p = (cl, Except.ok rep)) :
    ∀ q ∈ get_subnets p.describeSubnets (if cfg.useDmz then "dmz-" else "internal-")
        cfg.regions,
      ∃ addrs, (q.1, addrs) ∈ rep.nodeIps ∧ addrs.length = cfg.clusterSize ∧
        (q.1, addrs.take rep.seedCount) ∈ rep.seedNodes := by
  obtain ⟨-, hAl, hrep⟩ := create_cluster_ok_inv cfg p cl rep hrun
  intro q hq
  have hok : allocate_ip_addresses p.inUse p.elasticSupply cfg.useDmz cfg.clusterSize
      (get_subnets p.describeSubnets (if cfg.useDmz then "dmz-" else "internal-")
        cfg.regions)
      = ((allocate_ip_addresses p.inUse p.elasticSupply cfg.useDmz cfg.clusterSize
          (get_subnets p.describeSubnets (if cfg.useDmz then "dmz-" else "internal-")
            cfg.regions)).1, none) := by
    rw [← hAl]
  obtain ⟨hall, heq⟩ := allocate_ok_eq p.inUse p.elasticSupply cfg.useDmz cfg.clusterSize
    _ _ hok
  refine ⟨buildAddresses cfg.useDmz (p.elasticSupply q.1)
    (generate_private_ip_addresses (p.inUse q.1) q.2 cfg.clusterSize).ips, ?_, ?_, ?_⟩
  · rw [hrep]
    dsimp only
    rw [heq]
    exact List.mem_map.mpr ⟨q, hq, rfl⟩
  · rw [buildAddresses_length]
    exact generate_ips_length (p.inUse q.1) q.2 cfg.clusterSize (hall q hq)
  · rw [hrep]
    dsimp only
    rw [pick_seed_eq_map, heq]
    exact List.mem_map.mpr ⟨(q.1, buildAddresses cfg.useDmz (p.elasticSupply q.1)
      (generate_private_ip_addresses (p.inUse q.1) q.2 cfg.clusterSize).ips),
      List.mem_map.mpr ⟨q, hq, rfl⟩, rfl⟩

/-- Witness for c10_topology_lengths: in the four-node run, the retained
region `r1` appears in the topology with 4 addresses whose first 3 form
its seed slice. -/
theorem c10_witness :
    ∃ addrs, (("r1", [exSubnet]).1, addrs) ∈ repW.nodeIps ∧
      addrs.length = cfgSeedRun.clusterSize ∧
      (("r1", [exSubnet]).1, addrs.take repW.seedCount) ∈ repW.seedNodes :=
  c10_topology_lengths cfgSeedRun provInternal [] repW rfl ("r1", [exSubnet]) (by decide)

/-- Counterexample to C10 as stated: a supplied region whose subnets all
fail the name filter is silently dropped — the run completes with an
empty topology in which the region has no address sequence at all. -/
theorem c10_counterexample :
    cfgNoSubnets.regions = ["r1"] ∧ cfgNoSubnets.clusterSize = 1 ∧
      create_cluster cfgNoSubnets provEmpty
        = ([], Except.ok { nodeIps := [], seedCount := 1, seedNodes := [], events := [] }) ∧
      ¬ ∃ addrs : List Address, ("r1", addrs) ∈
        ({ nodeIps := [], seedCount := 1, seedNodes := [], events := [] }
          : SuccessReport).nodeIps := by
  refine ⟨rfl, rfl, rfl, ?_⟩
  rintro ⟨addrs, h⟩
  simp at h
